import Mathlib

/-!
# Verification of the chessgui rules engine (`src/DrawableBoard.hpp`)

A shallow embedding of the rules-engine portion of `DrawableBoard` and proofs
about it.  Conventions of the embedding:

* C++ `int` is modelled as `Int`; all arithmetic on the values that occur is on
  nonnegative numbers, where the euclidean `/` and `%` of Lean agree with C++
  truncating division.  C++ bit operations on the (always nonnegative) piece
  and flag encodings are modelled by `iand`/`ior` (below), `x >> 3` by
  `x / 8`, `x << 3` by `x * 8`, `x & 0b111` by `iand x 7`.
* The fixed-size C++ arrays (`peices[64]`, `eligibleEnPassantSquare[500]`,
  `halfmovesSincePawnMoveOrCapture[250]`, `positionHistory[500]`,
  `kingsideCastlingRightsLost[2]`, …) are modelled as lists of the array
  length, accessed through `arrGet`/`arrSet` at `Int` indices.  An access
  outside the C++ bounds is undefined behavior in the source; claim C10 is
  about the index values, and no claim observes the value of an
  out-of-bounds access, so `arrGet` defaults to `0` there and `arrSet`
  leaves the list unchanged.
* `zobrist` (C++ `uint64`) is a `Nat`; all keys are `< 2 ^ 64` and `^^^` never
  leaves that range.  `static_cast<uint32>` is `% 2 ^ 32`.
* Exceptions (`std::invalid_argument`) are modelled with `Except`.  Because
  `initializeFen` mutates the board object in place and then throws, its
  error value carries the partially updated board (claim C7 observes it).
* `precomputed.hpp` is not part of `src/`; the tables it provides
  (`ZOBRIST_*` keys, `KNIGHT_MOVES`, `KING_MOVES`, `DIRECTION_BOUNDS`) are
  modelled from the spec where marked below.
-/

set_option maxRecDepth 100000

set_option maxHeartbeats 4000000

/-- C++ bitwise `&` on `int`; every operand in this program is nonnegative. -/
def iand (a b : Int) : Int := Int.ofNat (a.toNat &&& b.toNat)

/-- C++ bitwise `|` on `int`; every operand in this program is nonnegative. -/
def ior (a b : Int) : Int := Int.ofNat (a.toNat ||| b.toNat)

/-- Read a C++ `int` array at an `int` index (see the header note on
out-of-bounds accesses). -/
def arrGet (l : List Int) (i : Int) : Int := l.getD i.toNat 0

/-- Write a C++ `int` array at an `int` index. -/
def arrSet (l : List Int) (i : Int) (v : Int) : List Int := l.set i.toNat v

/-- Read the `uint32` array `positionHistory`. -/
def arrGetN (l : List Nat) (i : Int) : Nat := l.getD i.toNat 0

/-- Write the `uint32` array `positionHistory`. -/
def arrSetN (l : List Nat) (i : Int) (v : Nat) : List Nat := l.set i.toNat v

/-- Piece encoding constants from `DrawableBoard` (`WHITE = 0b0000` …). -/
def WHITE : Int := 0

def BLACK : Int := 8

def PAWN : Int := 1

def KNIGHT : Int := 2

def BISHOP : Int := 3

def ROOK : Int := 4

def QUEEN : Int := 5

def KING : Int := 6

/-- Modelled from the spec (§3, Glossary): the Zobrist key tables live in the
absent `precomputed.hpp`; the spec only requires fixed pseudo-random 64-bit
keys, modelled here with the splitmix64 finalizer over a per-table index. -/
def zobristMix (n : Nat) : Nat :=
  let x := (n + 0x9E3779B97F4A7C15) % 2 ^ 64
  let x := ((x ^^^ (x >>> 30)) * 0xBF58476D1CE4E5B9) % 2 ^ 64
  let x := ((x ^^^ (x >>> 27)) * 0x94D049BB133111EB) % 2 ^ 64
  x ^^^ (x >>> 31)

/-- Modelled from the spec: `ZOBRIST_PEICE_KEYS[color][kind - 1][square]`. -/
def ZOBRIST_PEICE_KEYS (c k sq : Int) : Nat :=
  zobristMix (c.toNat * 512 + k.toNat * 64 + sq.toNat)

/-- Modelled from the spec: side-to-move key. -/
def ZOBRIST_TURN_KEY : Nat := zobristMix 10000

/-- Modelled from the spec: per-color kingside castling keys. -/
def ZOBRIST_KINGSIDE_CASTLING_KEYS (c : Int) : Nat := zobristMix (10001 + c.toNat)

/-- Modelled from the spec: per-color queenside castling keys. -/
def ZOBRIST_QUEENSIDE_CASTLING_KEYS (c : Int) : Nat := zobristMix (10003 + c.toNat)

/-- Modelled from the spec (§2 "Attack Geometry Tables"): knight jump list for
a square; the C++ `KNIGHT_MOVES[s]` row lists the same squares (its slot 0
holds the row length, which the embedding replaces by the list length). -/
def KNIGHT_MOVES (s : Int) : List Int :=
  [((1 : Int), (2 : Int)), (2, 1), (2, -1), (1, -2), (-1, -2), (-2, -1), (-2, 1), (-1, 2)].filterMap
    fun d =>
      let f := s % 8 + d.1
      let r := s / 8 + d.2
      if 0 ≤ f ∧ f < 8 ∧ 0 ≤ r ∧ r < 8 then some (r * 8 + f) else none

/-- Modelled from the spec (§2 "Attack Geometry Tables"): king jump list. -/
def KING_MOVES (s : Int) : List Int :=
  [((0 : Int), (1 : Int)), (1, 1), (1, 0), (1, -1), (0, -1), (-1, -1), (-1, 0), (-1, 1)].filterMap
    fun d =>
      let f := s % 8 + d.1
      let r := s / 8 + d.2
      if 0 ≤ f ∧ f < 8 ∧ 0 ≤ r ∧ r < 8 then some (r * 8 + f) else none

/-- Squares visited by a C++ ray loop `for (j = s + step; …; j += step)`. -/
def rayFrom (s step : Int) (n : Nat) : List Int :=
  (List.range n).map fun k => s + step * ((k : Int) + 1)

/-- Modelled from the spec: ray toward rank 1 (`j -= 8` down to
`DIRECTION_BOUNDS[s][B]`, which allows `s / 8` steps). -/
def rayB (s : Int) : List Int := rayFrom s (-8) (s / 8).toNat

/-- Modelled from the spec: ray toward rank 8 (`j += 8`). -/
def rayF (s : Int) : List Int := rayFrom s 8 (7 - s / 8).toNat

/-- Modelled from the spec: ray toward file a (`j -= 1`). -/
def rayL (s : Int) : List Int := rayFrom s (-1) (s % 8).toNat

/-- Modelled from the spec: ray toward file h (`j += 1`). -/
def rayR (s : Int) : List Int := rayFrom s 1 (7 - s % 8).toNat

/-- Modelled from the spec: diagonal ray, back-left (`j -= 9`). -/
def rayBL (s : Int) : List Int := rayFrom s (-9) (min (s % 8) (s / 8)).toNat

/-- Modelled from the spec: diagonal ray, front-right (`j += 9`). -/
def rayFR (s : Int) : List Int := rayFrom s 9 (min (7 - s % 8) (7 - s / 8)).toNat

/-- Modelled from the spec: diagonal ray, back-right (`j -= 7`). -/
def rayBR (s : Int) : List Int := rayFrom s (-7) (min (7 - s % 8) (s / 8)).toNat

/-- Modelled from the spec: diagonal ray, front-left (`j += 7`). -/
def rayFL (s : Int) : List Int := rayFrom s 7 (min (s % 8) (7 - s / 8)).toNat

/-- The piece on the first occupied square of a ray (`0` when the whole ray is
empty): the body of every C++ loop `for … { if (peices[j]) { …; break } }`. -/
def firstPeice (p : List Int) : List Int → Int
  | [] => 0
  | j :: rest => if arrGet p j ≠ 0 then arrGet p j else firstPeice p rest

/-- `DrawableBoard::Move` (the five `int` fields of the C++ class). -/
structure Move where
  startSquare : Int
  targetSquare : Int
  movingPeice : Int
  capturedPeice : Int
  flags : Int
deriving DecidableEq, Repr

/-- Flag constants of `Move` (`PROMOTION = 0b00000111`, …). -/
def Move.PROMOTION : Int := 7

def Move.LEGAL : Int := 8

def Move.EN_PASSANT : Int := 16

def Move.CASTLE : Int := 32

/-- `Move::start()`. -/
def Move.start (m : Move) : Int := m.startSquare

/-- `Move::target()`. -/
def Move.target (m : Move) : Int := m.targetSquare

/-- `Move::moving()`. -/
def Move.moving (m : Move) : Int := m.movingPeice

/-- `Move::captured()`. -/
def Move.captured (m : Move) : Int := m.capturedPeice

/-- `Move::color()`: `(movingPeice >> 3) << 3`. -/
def Move.color (m : Move) : Int := m.movingPeice / 8 * 8

/-- `Move::enemy()`: `!(movingPeice >> 3) << 3` (C++ `!` maps `0` to `1` and
everything else to `0`). -/
def Move.enemy (m : Move) : Int := (if m.movingPeice / 8 = 0 then 1 else 0) * 8

/-- `Move::promotion()`: `flags & PROMOTION`. -/
def Move.promotion (m : Move) : Int := iand m.flags Move.PROMOTION

/-- `Move::isEnPassant()`: `flags & EN_PASSANT` (as a boolean test). -/
def Move.isEnPassant (m : Move) : Bool := iand m.flags Move.EN_PASSANT ≠ 0

/-- `Move::isCastling()`: `flags & CASTLE`. -/
def Move.isCastling (m : Move) : Bool := iand m.flags Move.CASTLE ≠ 0

/-- `Move::legalFlagSet()`: `flags & LEGAL`. -/
def Move.legalFlagSet (m : Move) : Bool := iand m.flags Move.LEGAL ≠ 0

/-- `Move::setLegalFlag()`: `flags |= LEGAL` (returns the updated move). -/
def Move.setLegal (m : Move) : Move := { m with flags := ior m.flags Move.LEGAL }

/-- `Move::operator==`, exactly as the C++ parses: because `==` binds tighter
than `&`, the third conjunct is `flags & (PROMOTION == (other.flags &
PROMOTION))`, where the C++ bool comparison converts to `1` or `0`. -/
def Move.eqOp (m other : Move) : Bool :=
  m.start = other.start ∧ m.target = other.target ∧
    iand m.flags (if Move.PROMOTION = iand other.flags Move.PROMOTION then 1 else 0) ≠ 0

/-- The engine state of `DrawableBoard` (graphical members and the
`currentLegalMoves` cache are not part of any claim and are omitted; see
the comment on `initializeFen`). -/
structure Board where
  peices : List Int
  kingsideCastlingRightsLost : List Int
  queensideCastlingRightsLost : List Int
  eligibleEnPassantSquare : List Int
  halfmovesSincePawnMoveOrCapture : List Int
  hmspmocIndex : Int
  totalHalfmoves : Int
  kingIndex : List Int
  positionHistory : List Nat
  zobrist : Nat
  numPeices : List Int
  numTotalPeices : List Int
deriving DecidableEq, Repr

/-- A board whose members all hold zero, standing for the
default-initialized object before `initializeFen` runs. -/
def emptyBoard : Board where
  peices := List.replicate 64 0
  kingsideCastlingRightsLost := List.replicate 2 0
  queensideCastlingRightsLost := List.replicate 2 0
  eligibleEnPassantSquare := List.replicate 500 0
  halfmovesSincePawnMoveOrCapture := List.replicate 250 0
  hmspmocIndex := 0
  totalHalfmoves := 0
  kingIndex := List.replicate 2 0
  positionHistory := List.replicate 500 0
  zobrist := 0
  numPeices := List.replicate 15 0
  numTotalPeices := List.replicate 2 0

/-- The `Move(board, start, target, givenFlags)` constructor. -/
def mkMove (board : Board) (start target givenFlags : Int) : Move :=
  let m : Move :=
    { startSquare := start, targetSquare := target,
      movingPeice := arrGet board.peices start, capturedPeice := arrGet board.peices target,
      flags := givenFlags }
  if m.isEnPassant then { m with capturedPeice := m.enemy + PAWN } else m

/-- `makeMove` (the state effect).  The C++ function is declared `bool` but
contains no `return` statement, so the value the caller observes is
indeterminate; the state mutation below is everything the body actually
does.  Claim C1 treats the indeterminate return value explicitly. -/
def makeMove (b : Board) (move : Move) : Board :=
  let c := move.moving / 8
  let color := c * 8
  let e : Int := if color = 0 then 1 else 0
  -- UPDATE PEICE DATA / ZOBRIST HASH: peices array
  let peices := arrSet b.peices move.start 0
  let peices := arrSet peices move.target
    (if move.promotion ≠ 0 then color + move.promotion else move.moving)
  let peices :=
    if move.isEnPassant then arrSet peices (move.target - 8 + 16 * c) 0 else peices
  -- zobrist hash for turn change and for the moving peice
  let zobrist := b.zobrist ^^^ ZOBRIST_TURN_KEY
  let zobrist := zobrist ^^^ ZOBRIST_PEICE_KEYS c (move.moving % 8 - 1) move.start
  let zobrist :=
    if move.promotion ≠ 0 then zobrist ^^^ ZOBRIST_PEICE_KEYS c (move.promotion - 1) move.target
    else zobrist ^^^ ZOBRIST_PEICE_KEYS c (move.moving % 8 - 1) move.target
  let numPeices :=
    if move.promotion ≠ 0 then
      let np := arrSet b.numPeices move.moving (arrGet b.numPeices move.moving - 1)
      arrSet np (color + move.promotion) (arrGet np (color + move.promotion) + 1)
    else b.numPeices
  -- capture
  let captureSquare := if move.isEnPassant then move.target - 8 + 16 * c else move.target
  let zobrist :=
    if move.captured ≠ 0 then
      zobrist ^^^ ZOBRIST_PEICE_KEYS e (move.captured % 8 - 1) captureSquare
    else zobrist
  let numPeices :=
    if move.captured ≠ 0 then
      arrSet numPeices move.captured (arrGet numPeices move.captured - 1)
    else numPeices
  let numTotalPeices :=
    if move.captured ≠ 0 then arrSet b.numTotalPeices e (arrGet b.numTotalPeices e - 1)
    else b.numTotalPeices
  -- rooks for castling
  let castlingRank := iand move.target 248
  let rookStart := if move.target % 8 < 4 then castlingRank else castlingRank + 7
  let rookEnd := if move.target % 8 < 4 then castlingRank + 3 else castlingRank + 5
  let peices :=
    if move.isCastling then
      arrSet (arrSet peices rookEnd (arrGet peices rookStart)) rookStart 0
    else peices
  let zobrist :=
    if move.isCastling then
      zobrist ^^^ ZOBRIST_PEICE_KEYS c (ROOK - 1) rookStart ^^^
        ZOBRIST_PEICE_KEYS c (ROOK - 1) rookEnd
    else zobrist
  -- UPDATE BOARD FLAGS: king index
  let kingIndex :=
    if move.moving % 8 = KING then arrSet b.kingIndex c move.target else b.kingIndex
  -- increment counters / update position history
  let totalHalfmoves := b.totalHalfmoves + 1
  let halfmovesSincePawnMoveOrCapture :=
    if move.captured ≠ 0 ∨ move.moving = color + PAWN then
      arrSet b.halfmovesSincePawnMoveOrCapture b.hmspmocIndex 0
    else
      arrSet b.halfmovesSincePawnMoveOrCapture (b.hmspmocIndex - 1)
        (arrGet b.halfmovesSincePawnMoveOrCapture (b.hmspmocIndex - 1) + 1)
  let hmspmocIndex :=
    if move.captured ≠ 0 ∨ move.moving = color + PAWN then b.hmspmocIndex + 1 else b.hmspmocIndex
  -- en passant file
  let eligibleEnPassantSquare :=
    arrSet b.eligibleEnPassantSquare totalHalfmoves
      (if move.moving % 8 = PAWN ∧ (move.target - move.start).natAbs = 16 then
        (move.start + move.target) / 2
      else -1)
  -- castling rights
  let ksc := arrGet b.kingsideCastlingRightsLost c = 0 ∧
    (move.moving = color + KING ∨ (move.moving = color + ROOK ∧
      (if color = WHITE then move.start = 7 else move.start = 63)))
  let kingsideCastlingRightsLost :=
    if ksc then arrSet b.kingsideCastlingRightsLost c totalHalfmoves
    else b.kingsideCastlingRightsLost
  let zobrist := if ksc then zobrist ^^^ ZOBRIST_KINGSIDE_CASTLING_KEYS c else zobrist
  let qsc := arrGet b.queensideCastlingRightsLost c = 0 ∧
    (move.moving = color + KING ∨ (move.moving = color + ROOK ∧
      (if color = WHITE then move.start = 0 else move.start = 56)))
  let queensideCastlingRightsLost :=
    if qsc then arrSet b.queensideCastlingRightsLost c totalHalfmoves
    else b.queensideCastlingRightsLost
  let zobrist := if qsc then zobrist ^^^ ZOBRIST_QUEENSIDE_CASTLING_KEYS c else zobrist
  let kse := arrGet kingsideCastlingRightsLost e = 0 ∧
    (if color = BLACK then move.target = 7 else move.target = 63)
  let kingsideCastlingRightsLost :=
    if kse then arrSet kingsideCastlingRightsLost e totalHalfmoves
    else kingsideCastlingRightsLost
  let zobrist := if kse then zobrist ^^^ ZOBRIST_KINGSIDE_CASTLING_KEYS e else zobrist
  let qse := arrGet queensideCastlingRightsLost e = 0 ∧
    (if color = BLACK then move.target = 0 else move.target = 56)
  let queensideCastlingRightsLost :=
    if qse then arrSet queensideCastlingRightsLost e totalHalfmoves
    else queensideCastlingRightsLost
  let zobrist := if qse then zobrist ^^^ ZOBRIST_QUEENSIDE_CASTLING_KEYS e else zobrist
  let positionHistory :=
    arrSetN b.positionHistory (totalHalfmoves - 1) (zobrist % 2 ^ 32)
  { peices, kingsideCastlingRightsLost, queensideCastlingRightsLost, eligibleEnPassantSquare,
    halfmovesSincePawnMoveOrCapture, hmspmocIndex, totalHalfmoves, kingIndex, positionHistory,
    zobrist, numPeices, numTotalPeices }

/-- `unmakeMove`. -/
def unmakeMove (b : Board) (move : Move) : Board :=
  let c := move.moving / 8
  let color := c * 8
  let e : Int := if color = 0 then 1 else 0
  -- UNDO PEICE DATA / ZOBRIST HASH: turn change
  let zobrist := b.zobrist ^^^ ZOBRIST_TURN_KEY
  -- undo peice array, zobrist hash for moving peice
  let peices := arrSet b.peices move.start move.moving
  let peices := arrSet peices move.target move.captured
  let peices :=
    if move.isEnPassant then
      arrSet (arrSet peices move.target 0) (move.target - 8 + 16 * c) move.captured
    else peices
  let numPeices :=
    if move.promotion ≠ 0 then
      let np := arrSet b.numPeices move.moving (arrGet b.numPeices move.moving + 1)
      arrSet np (color + move.promotion) (arrGet np (color + move.promotion) - 1)
    else b.numPeices
  let zobrist :=
    if move.promotion ≠ 0 then zobrist ^^^ ZOBRIST_PEICE_KEYS c (move.promotion - 1) move.target
    else zobrist ^^^ ZOBRIST_PEICE_KEYS c (move.moving % 8 - 1) move.target
  let zobrist := zobrist ^^^ ZOBRIST_PEICE_KEYS c (move.moving % 8 - 1) move.start
  -- undo capture
  let captureSquare := if move.isEnPassant then move.target - 8 + 16 * c else move.target
  let zobrist :=
    if move.captured ≠ 0 then
      zobrist ^^^ ZOBRIST_PEICE_KEYS e (move.captured % 8 - 1) captureSquare
    else zobrist
  let numPeices :=
    if move.captured ≠ 0 then
      arrSet numPeices move.captured (arrGet numPeices move.captured + 1)
    else numPeices
  let numTotalPeices :=
    if move.captured ≠ 0 then arrSet b.numTotalPeices e (arrGet b.numTotalPeices e + 1)
    else b.numTotalPeices
  -- undo rooks for castling
  let castlingRank := iand move.target 248
  let rookStart := if move.target % 8 < 4 then castlingRank else castlingRank + 7
  let rookEnd := if move.target % 8 < 4 then castlingRank + 3 else castlingRank + 5
  let peices :=
    if move.isCastling then
      arrSet (arrSet peices rookStart (arrGet peices rookEnd)) rookEnd 0
    else peices
  let zobrist :=
    if move.isCastling then
      zobrist ^^^ ZOBRIST_PEICE_KEYS c (ROOK - 1) rookStart ^^^
        ZOBRIST_PEICE_KEYS c (ROOK - 1) rookEnd
    else zobrist
  -- UNDO BOARD FLAGS: king index
  let kingIndex :=
    if move.moving % 8 = KING then arrSet b.kingIndex c move.start else b.kingIndex
  -- undo castling rights (tested against totalHalfmoves before the decrement)
  let ksc := arrGet b.kingsideCastlingRightsLost c = b.totalHalfmoves
  let kingsideCastlingRightsLost :=
    if ksc then arrSet b.kingsideCastlingRightsLost c 0
    else b.kingsideCastlingRightsLost
  let zobrist := if ksc then zobrist ^^^ ZOBRIST_KINGSIDE_CASTLING_KEYS c else zobrist
  let qsc := arrGet b.queensideCastlingRightsLost c = b.totalHalfmoves
  let queensideCastlingRightsLost :=
    if qsc then arrSet b.queensideCastlingRightsLost c 0
    else b.queensideCastlingRightsLost
  let zobrist := if qsc then zobrist ^^^ ZOBRIST_QUEENSIDE_CASTLING_KEYS c else zobrist
  let kse := arrGet kingsideCastlingRightsLost e = b.totalHalfmoves
  let kingsideCastlingRightsLost :=
    if kse then arrSet kingsideCastlingRightsLost e 0 else kingsideCastlingRightsLost
  let zobrist := if kse then zobrist ^^^ ZOBRIST_KINGSIDE_CASTLING_KEYS e else zobrist
  let qse := arrGet queensideCastlingRightsLost e = b.totalHalfmoves
  let queensideCastlingRightsLost :=
    if qse then arrSet queensideCastlingRightsLost e 0 else queensideCastlingRightsLost
  let zobrist := if qse then zobrist ^^^ ZOBRIST_QUEENSIDE_CASTLING_KEYS e else zobrist
  -- decrement counters
  let totalHalfmoves := b.totalHalfmoves - 1
  let hmspmocIndex :=
    if move.captured ≠ 0 ∨ move.moving = color + PAWN then b.hmspmocIndex - 1
    else b.hmspmocIndex
  let halfmovesSincePawnMoveOrCapture :=
    if move.captured ≠ 0 ∨ move.moving = color + PAWN then b.halfmovesSincePawnMoveOrCapture
    else
      arrSet b.halfmovesSincePawnMoveOrCapture (b.hmspmocIndex - 1)
        (arrGet b.halfmovesSincePawnMoveOrCapture (b.hmspmocIndex - 1) - 1)
  { peices, kingsideCastlingRightsLost, queensideCastlingRightsLost,
    eligibleEnPassantSquare := b.eligibleEnPassantSquare,
    halfmovesSincePawnMoveOrCapture, hmspmocIndex, totalHalfmoves, kingIndex,
    positionHistory := b.positionHistory, zobrist, numPeices, numTotalPeices }

/-- `inCheck(int c)`: is the king of color bit `c` attacked. -/
def inCheckColor (b : Board) (c : Int) : Bool :=
  let e : Int := if c = 0 then 1 else 0
  let enemy := e * 8
  let king := arrGet b.kingIndex c
  let kingFile := king % 8
  let ahead := king + 8 - 16 * c
  -- pawn checks
  (kingFile != 0 && arrGet b.peices (ahead - 1) == enemy + PAWN) ||
  (kingFile != 7 && arrGet b.peices (ahead + 1) == enemy + PAWN) ||
  -- knight checks
  (KNIGHT_MOVES king).any (fun j => arrGet b.peices j == enemy + KNIGHT) ||
  -- sliding peice checks
  (firstPeice b.peices (rayB king) == enemy + ROOK ||
    firstPeice b.peices (rayB king) == enemy + QUEEN) ||
  (firstPeice b.peices (rayF king) == enemy + ROOK ||
    firstPeice b.peices (rayF king) == enemy + QUEEN) ||
  (firstPeice b.peices (rayL king) == enemy + ROOK ||
    firstPeice b.peices (rayL king) == enemy + QUEEN) ||
  (firstPeice b.peices (rayR king) == enemy + ROOK ||
    firstPeice b.peices (rayR king) == enemy + QUEEN) ||
  (firstPeice b.peices (rayBL king) == enemy + BISHOP ||
    firstPeice b.peices (rayBL king) == enemy + QUEEN) ||
  (firstPeice b.peices (rayFR king) == enemy + BISHOP ||
    firstPeice b.peices (rayFR king) == enemy + QUEEN) ||
  (firstPeice b.peices (rayBR king) == enemy + BISHOP ||
    firstPeice b.peices (rayBR king) == enemy + QUEEN) ||
  (firstPeice b.peices (rayFL king) == enemy + BISHOP ||
    firstPeice b.peices (rayFL king) == enemy + QUEEN) ||
  -- king checks
  (KING_MOVES king).any (fun j => arrGet b.peices j == enemy + KING)

/-- `inCheck()`: the side to move. -/
def inCheck (b : Board) : Bool := inCheckColor b (b.totalHalfmoves % 2)

/-- `castlingMoveIsLegal`: no square of the king path may be attacked.  The
C++ mutates the move (`setLegalFlag`), so the updated move is returned too. -/
def castlingMoveIsLegal (b : Board) (move : Move) : Bool × Move :=
  if move.legalFlagSet then (true, move)
  else
    let c := b.totalHalfmoves % 2
    let color := c * 8
    let e : Int := if color = 0 then 1 else 0
    let enemy := e * 8
    let castlingRank := iand move.start 248
    let path : List Int :=
      if move.target - castlingRank < 4 then [castlingRank + 2, castlingRank + 3]
      else [castlingRank + 5, castlingRank + 6]
    let attacked : Int → Bool := fun s =>
      let file := s % 8
      let ahead := s + 8 - 16 * c
      (file != 0 && arrGet b.peices (ahead - 1) == enemy + PAWN) ||
      (file != 7 && arrGet b.peices (ahead + 1) == enemy + PAWN) ||
      (KNIGHT_MOVES s).any (fun j => arrGet b.peices j == enemy + KNIGHT) ||
      (if color = BLACK then
        (firstPeice b.peices (rayB s) == enemy + ROOK ||
          firstPeice b.peices (rayB s) == enemy + QUEEN) ||
        (firstPeice b.peices (rayBL s) == enemy + BISHOP ||
          firstPeice b.peices (rayBL s) == enemy + QUEEN) ||
        (firstPeice b.peices (rayBR s) == enemy + BISHOP ||
          firstPeice b.peices (rayBR s) == enemy + QUEEN)
      else
        (firstPeice b.peices (rayF s) == enemy + ROOK ||
          firstPeice b.peices (rayF s) == enemy + QUEEN) ||
        (firstPeice b.peices (rayFR s) == enemy + BISHOP ||
          firstPeice b.peices (rayFR s) == enemy + QUEEN) ||
        (firstPeice b.peices (rayFL s) == enemy + BISHOP ||
          firstPeice b.peices (rayFL s) == enemy + QUEEN)) ||
      (KING_MOVES s).any (fun j => arrGet b.peices j == enemy + KING)
    if path.any attacked then (false, move) else (true, move.setLegal)

/-- `isLegal`.  The C++ writes `if (makeMove(move)) { unmakeMove(move); … }`,
but `makeMove` is declared `bool` and contains no `return` statement, so
the tested value is indeterminate; it is passed here as `g`.  The result is
the returned boolean together with the board and move as the call leaves
them: when `g` is `false`, `unmakeMove` is never executed. -/
def isLegalCode (g : Bool) (b : Board) (move : Move) : Bool × Board × Move :=
  if move.legalFlagSet then (true, b, move)
  else if move.isCastling then
    if inCheck b then (false, b, move)
    else
      let r := castlingMoveIsLegal b move
      (r.1, b, r.2)
  else if g then (true, unmakeMove (makeMove b move) move, move.setLegal)
  else (false, makeMove b move, move)

/-- `isDrawByFiftyMoveRule`. -/
def isDrawByFiftyMoveRule (b : Board) : Bool :=
  decide (50 ≤ arrGet b.halfmovesSincePawnMoveOrCapture (b.hmspmocIndex - 1))

/-- The scan loop of `isDrawByThreefoldRepitition`
(`for (int i = 0; i < numPossibleRepitions; ++i) …`). -/
def threefoldLoop (ph : List Nat) (currentHash : Nat) :
    Nat → Int → Bool → Bool
  | 0, _, _ => false
  | n + 1, index, repititionFound =>
    if arrGetN ph index = currentHash then
      if repititionFound then true
      else threefoldLoop ph currentHash n (index - 2) true
    else threefoldLoop ph currentHash n (index - 2) repititionFound

/-- `isDrawByThreefoldRepitition`.  The local `bool repititionFound;` is never
initialized in the C++, so its initial value is indeterminate and is passed
here as `g`. -/
def isDrawByThreefoldRepitition (g : Bool) (b : Board) : Bool :=
  if arrGet b.halfmovesSincePawnMoveOrCapture (b.hmspmocIndex - 1) < 8 then false
  else
    let index := b.totalHalfmoves - 4
    let numPossibleRepitions :=
      arrGet b.halfmovesSincePawnMoveOrCapture (b.hmspmocIndex - 1) / 2 - 1
    let currentHash := b.zobrist % 2 ^ 32
    threefoldLoop b.positionHistory currentHash numPossibleRepitions.toNat index g

/-- The list of field strings that successive `std::getline(stream, out, ' ')`
calls produce: the text is split at each `' '`; a trailing delimiter yields
no extra (empty) field because `getline` at end-of-stream fails instead. -/
def splitOnSpace : List Char → List (List Char)
  | [] => [[]]
  | ch :: rest =>
    if ch = ' ' then [] :: splitOnSpace rest
    else
      match splitOnSpace rest with
      | f :: fs => (ch :: f) :: fs
      | [] => [[ch]]

/-- See `splitOnSpace`; drops the empty trailing field of a string that ends
in a delimiter, and yields no field at all for the empty string. -/
def fenFields (s : List Char) : List (List Char) :=
  let ts := splitOnSpace s
  if ts.getLastD ['x'] = [] then ts.dropLast else ts

/-- `std::isalpha` in the default locale. -/
def isalphaChar (ch : Char) : Bool :=
  decide ((65 ≤ ch.toNat ∧ ch.toNat ≤ 90) ∨ (97 ≤ ch.toNat ∧ ch.toNat ≤ 122))

/-- `std::isdigit`. -/
def isdigitChar (ch : Char) : Bool := decide (48 ≤ ch.toNat ∧ ch.toNat ≤ 57)

/-- The gap loop `for (int i = 0; i < gap; ++i) peices[peiceIndex++] = 0;`. -/
def placeGap (p : List Int) (idx : Int) : Nat → List Int × Int
  | 0 => (p, idx)
  | n + 1 => placeGap (arrSet p idx 0) (idx + 1) n

/-- The placement loop of `initializeFen` over the first FEN field, carrying
`(peices, kingIndex, peiceIndex)`; an error carries the state already
written, since the C++ mutates in place and then throws. -/
def parsePlacementData (st : List Int × List Int × Int) :
    List Char → Except (String × List Int × List Int × Int) (List Int × List Int × Int)
  | [] => .ok st
  | ch :: rest =>
    let p := st.1
    let ki := st.2.1
    let idx := st.2.2
    if isalphaChar ch then
      let c : Int := if 96 < ch.toNat ∧ ch.toNat < 123 then 1 else 0
      let color := c * 8
      match ch with
      | 'P' | 'p' => parsePlacementData (arrSet p idx (color + PAWN), ki, idx + 1) rest
      | 'N' | 'n' => parsePlacementData (arrSet p idx (color + KNIGHT), ki, idx + 1) rest
      | 'B' | 'b' => parsePlacementData (arrSet p idx (color + BISHOP), ki, idx + 1) rest
      | 'R' | 'r' => parsePlacementData (arrSet p idx (color + ROOK), ki, idx + 1) rest
      | 'Q' | 'q' => parsePlacementData (arrSet p idx (color + QUEEN), ki, idx + 1) rest
      | 'K' | 'k' =>
        parsePlacementData (arrSet p idx (color + KING), arrSet ki c idx, idx + 1) rest
      | _ => .error ("Unrecognised alpha char in FEN peice placement data!", p, ki, idx)
    else if isdigitChar ch then
      let g := placeGap p idx (ch.toNat - 48)
      parsePlacementData (g.1, ki, g.2) rest
    else if ch ≠ '/' then
      .error ("Unrecognised char in FEN peice placement data!", p, ki, idx)
    else if idx % 8 ≠ 0 then
      .error ("Arithmetic error in FEN peice placement data!", p, ki, idx)
    else parsePlacementData (p, ki, idx - 16) rest

/-- The castling-availability loop, carrying
`(kingsideCastlingRightsLost, queensideCastlingRightsLost, zobrist)`. -/
def parseCastlingChars (peices : List Int)
    (st : List Int × List Int × Nat) :
    List Char → Except (String × List Int × List Int × Nat) (List Int × List Int × Nat)
  | [] => .ok st
  | ch :: rest =>
    let ks := st.1
    let qs := st.2.1
    let z := st.2.2
    let c : Int := if 96 < ch.toNat ∧ ch.toNat < 123 then 1 else 0
    let color := c * 8
    let castlingRank := 56 * c
    match ch with
    | 'K' | 'k' =>
      if arrGet peices (castlingRank + 4) = color + KING ∧
          arrGet peices (castlingRank + 7) = color + ROOK then
        parseCastlingChars peices
          (arrSet ks c 0, qs, z ^^^ ZOBRIST_KINGSIDE_CASTLING_KEYS c) rest
      else parseCastlingChars peices (ks, qs, z) rest
    | 'Q' | 'q' =>
      if arrGet peices (castlingRank + 4) = color + KING ∧
          arrGet peices castlingRank = color + ROOK then
        parseCastlingChars peices
          (ks, arrSet qs c 0, z ^^^ ZOBRIST_QUEENSIDE_CASTLING_KEYS c) rest
      else parseCastlingChars peices (ks, qs, z) rest
    | _ => .error ("Unrecognised char in FEN castling availability data!", ks, qs, z)

/-- `std::stoi`: skip blanks, optional sign, then at least one digit (further
characters are ignored); throws `std::invalid_argument("stoi")` otherwise. -/
def stoiC (s : List Char) : Except String Int :=
  let t := s.dropWhile fun ch => decide (ch = ' ')
  let signed : Bool × List Char :=
    match t with
    | '-' :: u => (true, u)
    | '+' :: u => (false, u)
    | _ => (false, t)
  let ds := signed.2.takeWhile isdigitChar
  if ds = [] then .error "stoi"
  else
    .ok ((if signed.1 then -1 else 1) *
      ds.foldl (fun a ch => a * 10 + ((ch.toNat : Int) - 48)) 0)

/-- `algebraicNotationToBoardIndex` (name shortened for this file). -/
def algebraicToIndex (algebraic : List Char) : Except String Int :=
  match algebraic with
  | [c0, c1] =>
    let file : Int := (c0.toNat : Int) - 97
    let rank : Int := (c1.toNat : Int) - 49
    if file < 0 ∨ file > 7 ∨ rank < 0 ∨ rank > 7 then
      .error "Algebraic notation should be in the form [a-h][1-8]!"
    else .ok (rank * 8 + file)
  | _ => .error "Algebraic notation should only be two letters long!"

/-- `boardIndexToAlgebraicNotation` (name shortened).  The C++ throws for an
index outside `[0, 63]`; every call in the claims passes an in-range index,
so the range check is not modelled. -/
def indexToAlgebraic (boardIndex : Int) : List Char :=
  [Char.ofNat (97 + (boardIndex % 8).toNat), Char.ofNat (49 + (boardIndex / 8).toNat)]

/-- The final loop of `initializeFen`: zobrist keys and piece counts for every
occupied square, over `(zobrist, numPeices, numTotalPeices)`. -/
def initPeiceLoop (p : List Int) (st : Nat × List Int × List Int) :
    List Nat → Nat × List Int × List Int
  | [] => st
  | i :: rest =>
    let z := st.1
    let np := st.2.1
    let ntp := st.2.2
    let peice := arrGet p (i : Int)
    if peice ≠ 0 then
      initPeiceLoop p
        (z ^^^ ZOBRIST_PEICE_KEYS (peice / 8) (peice % 8 - 1) (i : Int),
         arrSet np peice (arrGet np peice + 1),
         arrSet ntp (peice / 8) (arrGet ntp (peice / 8) + 1)) rest
    else initPeiceLoop p st rest

/-- `initializeFen` from the castling-availability field on (the board passed
in already holds the parsed placement, king indices, `totalHalfmoves` parity
and turn-key zobrist contribution). -/
def initFenAfterColor (b : Board) (fields : List (List Char)) : Except (String × Board) Board :=
  match fields.get? 2 with
  | none => .error ("Cannot get castling availability from FEN!", b)
  | some castlingAvailabilty =>
  let b := { b with
    kingsideCastlingRightsLost := arrSet (arrSet b.kingsideCastlingRightsLost 0 (-1)) 1 (-1),
    queensideCastlingRightsLost := arrSet (arrSet b.queensideCastlingRightsLost 0 (-1)) 1 (-1) }
  match
    (if castlingAvailabilty = ['-'] then
      .ok (b.kingsideCastlingRightsLost, b.queensideCastlingRightsLost, b.zobrist)
    else
      parseCastlingChars b.peices
        (b.kingsideCastlingRightsLost, b.queensideCastlingRightsLost, b.zobrist)
        castlingAvailabilty) with
  | .error (msg, ks, qs, z) =>
    .error (msg, { b with kingsideCastlingRightsLost := ks,
                          queensideCastlingRightsLost := qs, zobrist := z })
  | .ok (ks, qs, z) =>
  let b := { b with kingsideCastlingRightsLost := ks,
                    queensideCastlingRightsLost := qs, zobrist := z }
  match fields.get? 3 with
  | none => .error ("Cannot get en passant target from FEN!", b)
  | some enPassantTarget =>
  -- half move clock, defaulting to "0" when the field is absent
  let halfmoveClock := (fields.get? 4).getD ['0']
  match stoiC halfmoveClock with
  | .error e => .error ("Invalid FEN half move clock! " ++ e, { b with hmspmocIndex := 0 })
  | .ok hc =>
  let b := { b with
    hmspmocIndex := 1,
    halfmovesSincePawnMoveOrCapture := arrSet b.halfmovesSincePawnMoveOrCapture 0 hc }
  -- full move number, defaulting to "1" when the field is absent
  let fullmoveNumber := (fields.get? 5).getD ['1']
  match stoiC fullmoveNumber with
  | .error e => .error ("Invalid FEN full move number! " ++ e, b)
  | .ok fm =>
  let b := { b with totalHalfmoves := b.totalHalfmoves + (fm * 2 - 2) }
  -- `for (int i = 0; i < 500; ++i) eligibleEnPassantSquare[i] = -1;`
  let epfill := (List.range 500).foldl (fun l i => arrSet l (i : Int) (-1))
    b.eligibleEnPassantSquare
  let b := { b with eligibleEnPassantSquare := epfill }
  if enPassantTarget = ['-'] then
    let ep := arrSet b.eligibleEnPassantSquare b.totalHalfmoves (-1)
    let b := { b with eligibleEnPassantSquare := ep }
    let r := initPeiceLoop b.peices (b.zobrist, b.numPeices, b.numTotalPeices) (List.range 64)
    .ok { b with zobrist := r.1, numPeices := r.2.1, numTotalPeices := r.2.2 }
  else
    match algebraicToIndex enPassantTarget with
    | .error e => .error ("Invalid FEN en passant target! " ++ e, b)
    | .ok sq =>
      let ep := arrSet b.eligibleEnPassantSquare b.totalHalfmoves sq
      let b := { b with eligibleEnPassantSquare := ep }
      let r := initPeiceLoop b.peices (b.zobrist, b.numPeices, b.numTotalPeices) (List.range 64)
      .ok { b with zobrist := r.1, numPeices := r.2.1, numTotalPeices := r.2.2 }

/-- `initializeFen`.  Mutation is in place in the C++, so an error carries the
partially updated board.  The trailing `currentLegalMoves = legalMoves()`
statement of the C++ only fills the (omitted) legal-move cache: `legalMoves`
probes candidates through `isLegal`, whose make/unmake trials put every field
modelled here back (under the resolution of the indeterminate `makeMove`
return value in which every trial is unmade), so it is not part of this
state. -/
def initializeFen (b : Board) (fenString : String) : Except (String × Board) Board :=
  -- Reset current members
  let b := { b with
    zobrist := 0,
    numPeices := (List.range 15).foldl (fun l i => arrSet l (i : Int) 0) b.numPeices,
    numTotalPeices := arrSet (arrSet b.numTotalPeices 0 0) 1 0 }
  let fields := fenFields fenString.data
  match fields.get? 0 with
  | none => .error ("Cannot get peice placement from FEN!", b)
  | some peicePlacementData =>
  match parsePlacementData (b.peices, b.kingIndex, 56) peicePlacementData with
  | .error (msg, p, ki, _) => .error (msg, { b with peices := p, kingIndex := ki })
  | .ok (p, ki, _) =>
  let b := { b with peices := p, kingIndex := ki }
  match fields.get? 1 with
  | none => .error ("Cannot get active color from FEN!", b)
  | some activeColor =>
  if activeColor = ['w'] then initFenAfterColor { b with totalHalfmoves := 0 } fields
  else if activeColor = ['b'] then
    initFenAfterColor
      { b with totalHalfmoves := 1, zobrist := b.zobrist ^^^ ZOBRIST_TURN_KEY } fields
  else .error ("Unrecognised charecter in FEN active color", b)

/-- The piece character `pcs[(p % (1 << 3)) - 1] + 32 * (p >> 3)` of `asFEN`. -/
def peiceFENChar (p : Int) : Char :=
  Char.ofNat ((['P', 'N', 'B', 'R', 'Q', 'K'].getD (p % 8 - 1).toNat 'P').toNat
    + 32 * (p / 8).toNat)

/-- One rank of `asFEN` piece placement output (inner loop with gap counter),
`j` ranging over the given offsets from the rank base `i`. -/
def fenRowChars (p : List Int) (i : Int) : List Nat → Int → List Char
  | [], gap => if gap ≠ 0 then [Char.ofNat (48 + gap.toNat)] else []
  | j :: rest, gap =>
    let pc := arrGet p (i + (j : Int))
    if pc = 0 then fenRowChars p i rest (gap + 1)
    else
      (if gap ≠ 0 then [Char.ofNat (48 + gap.toNat)] else []) ++
        peiceFENChar pc :: fenRowChars p i rest 0

/-- The outer placement loop of `asFEN` (`i = 56, 48, …, 0`), inserting the
rank separator after every rank but the last. -/
def fenRows (p : List Int) : List Int → List Char
  | [] => []
  | i :: rest =>
    fenRowChars p i (List.range 8) 0 ++ (if i ≠ 0 then ['/'] else []) ++ fenRows p rest

/-- The castling-availability block of `asFEN` (letters only, no padding). -/
def castlingAvailabilityFEN (b : Board) : List Char :=
  (if arrGet b.kingsideCastlingRightsLost 0 = 0 then ['K'] else []) ++
  (if arrGet b.queensideCastlingRightsLost 0 = 0 then ['Q'] else []) ++
  (if arrGet b.kingsideCastlingRightsLost 1 = 0 then ['k'] else []) ++
  (if arrGet b.queensideCastlingRightsLost 1 = 0 then ['q'] else [])

/-- `asFEN`.  Note the final statement of the C++ is `fen += '1' +
totalHalfmoves / 2;`: the `int` sum converts to a single `char` (reduced mod
256 here), so the full move number is emitted as one character. -/
def asFEN (b : Board) : String :=
  let c := b.totalHalfmoves % 2
  let placement := fenRows b.peices [56, 48, 40, 32, 24, 16, 8, 0]
  let turn := if c ≠ 0 then (" b " : String).data else (" w " : String).data
  let castling :=
    let ca := castlingAvailabilityFEN b
    if ca.length = 0 then ("- " : String).data else ca ++ [' ']
  let ep :=
    if 0 ≤ arrGet b.eligibleEnPassantSquare b.totalHalfmoves then
      indexToAlgebraic (arrGet b.eligibleEnPassantSquare b.totalHalfmoves) ++ [' ']
    else ("- " : String).data
  let clock :=
    (toString (arrGet b.halfmovesSincePawnMoveOrCapture (b.hmspmocIndex - 1))).data ++ [' ']
  let fullmove := [Char.ofNat ((49 + (b.totalHalfmoves / 2).toNat) % 256)]
  String.mk (placement ++ turn ++ castling ++ ep ++ clock ++ fullmove)

/-! ## Concrete states and game traces used by the claim theorems -/

/-- The standard start position in FEN. -/
def startFEN : String := "rnbqkbnr/pppppppp/8/8/8/8/PPPPPPPP/RNBQKBNR w KQkq - 0 1"

/-- The state `initializeFen` builds from `startFEN`. -/
def startBoard : Board := ((initializeFen emptyBoard startFEN).toOption).getD emptyBoard

/-- Apply the move from square `s` to square `t` (no flags), constructed by
the `Move` constructor on the current board — a trace helper. -/
def boardStep (b : Board) (s t : Int) : Board := makeMove b (mkMove b s t 0)

/-- Knight-shuffle trace from the start position: white Ng1–f3 / back, black
Ng8–f6 / back (squares 6 ↔ 21 and 62 ↔ 45), repeated; after 4k plies the
start position recurs. -/
def s1 : Board := boardStep startBoard 6 21

def s2 : Board := boardStep s1 62 45

def s3 : Board := boardStep s2 21 6

def s4 : Board := boardStep s3 45 62

def s5 : Board := boardStep s4 6 21

def s6 : Board := boardStep s5 62 45

def s7 : Board := boardStep s6 21 6

def s8 : Board := boardStep s7 45 62

def s9 : Board := boardStep s8 6 21

def s10 : Board := boardStep s9 62 45

def s11 : Board := boardStep s10 21 6

def s12 : Board := boardStep s11 45 62

def s13 : Board := boardStep s12 6 21

def s14 : Board := boardStep s13 62 45

def s15 : Board := boardStep s14 21 6

def s16 : Board := boardStep s15 45 62

def s17 : Board := boardStep s16 6 21

def s18 : Board := boardStep s17 62 45

/-- Two board states hold the same chess position in the sense of the
threefold-repetition rule: identical piece placement, side to move,
castling availability, and en-passant availability. -/
def samePosition (a b : Board) : Bool :=
  (a.peices == b.peices) &&
  (a.totalHalfmoves % 2 == b.totalHalfmoves % 2) &&
  ((arrGet a.kingsideCastlingRightsLost 0 == 0) ==
    (arrGet b.kingsideCastlingRightsLost 0 == 0)) &&
  ((arrGet a.queensideCastlingRightsLost 0 == 0) ==
    (arrGet b.queensideCastlingRightsLost 0 == 0)) &&
  ((arrGet a.kingsideCastlingRightsLost 1 == 0) ==
    (arrGet b.kingsideCastlingRightsLost 1 == 0)) &&
  ((arrGet a.queensideCastlingRightsLost 1 == 0) ==
    (arrGet b.queensideCastlingRightsLost 1 == 0)) &&
  (arrGet a.eligibleEnPassantSquare a.totalHalfmoves ==
    arrGet b.eligibleEnPassantSquare b.totalHalfmoves)

/-- A position whose halfmove clock reads 49 (white to move, quiet knight
move available from h1). -/
def fiftyBoard : Board :=
  ((initializeFen emptyBoard "k7/8/8/8/8/8/8/1K5N w - - 49 80").toOption).getD emptyBoard

/-- The position after 1. e4, black to move, en passant available on e3. -/
def epFENBoardA : Board :=
  ((initializeFen emptyBoard
    "rnbqkbnr/pppppppp/8/8/4P3/8/PPPP1PPP/RNBQKBNR b KQkq e3 0 1").toOption).getD emptyBoard

/-- The same placement, side, rights, and counters, but no en passant. -/
def epFENBoardB : Board :=
  ((initializeFen emptyBoard
    "rnbqkbnr/pppppppp/8/8/4P3/8/PPPP1PPP/RNBQKBNR b KQkq - 0 1").toOption).getD emptyBoard

/-- A FEN whose active-color field is malformed (placement field valid). -/
def badColorFEN : String := "8/8/8/8/8/8/8/K6k x KQkq - 0 1"

/-- The error message and the partially updated board that `initializeFen`
leaves behind on `badColorFEN`. -/
def c7Result : String × Board :=
  match initializeFen emptyBoard badColorFEN with
  | .error e => e
  | .ok bb => ("", bb)

/-- A FEN listing kingside castling for white while the white king stands on
g1, not on its home square e1. -/
def looseCastleFEN : String := "k7/8/8/8/8/8/8/6K1 w K - 0 1"

/-- The state parsed from `looseCastleFEN`. -/
def c9Board : Board :=
  ((initializeFen emptyBoard looseCastleFEN).toOption).getD emptyBoard

/-! ## Claim theorems: concrete evaluations -/

/-- C1: REFUTED by the code at a concrete input — `isLegal` does not
implement the reversible-trial method.  For the pseudo-legal non-castling
move e2–e3 (square 12 to 20) from the start position, after which the white
king is not attacked, the claim requires `isLegal` to return `true` with the
board restored.  But `makeMove` is declared `bool` with no `return`
statement, so `isLegal` branches on an indeterminate value `g` instead of a
check test; when `g` is `false` it returns `false` and skips `unmakeMove`,
leaving the pawn moved off e2. -/
theorem isLegal_no_check_test_and_no_unmake :
    (mkMove startBoard 12 20 0).legalFlagSet = false ∧
    (mkMove startBoard 12 20 0).isCastling = false ∧
    inCheckColor (makeMove startBoard (mkMove startBoard 12 20 0)) 0 = false ∧
    (isLegalCode false startBoard (mkMove startBoard 12 20 0)).1 = false ∧
    arrGet (isLegalCode false startBoard (mkMove startBoard 12 20 0)).2.1.peices 12 = 0 ∧
    arrGet startBoard.peices 12 = WHITE + PAWN := by
  decide

/-- C2 counterexample: applying and reversing the double pawn push e2–e4 from
the start position does not restore the en-passant records to their
pre-apply values — `unmakeMove` never clears the entry
`eligibleEnPassantSquare[totalHalfmoves + 1]` that `makeMove` wrote, so the
board state is not restored to byte-for-byte equality. -/
theorem make_unmake_leaves_ep_entry :
    arrGet (unmakeMove (makeMove startBoard (mkMove startBoard 12 28 0))
      (mkMove startBoard 12 28 0)).eligibleEnPassantSquare 1 = 20 ∧
    arrGet startBoard.eligibleEnPassantSquare 1 = -1 := by
  decide

/-- C3: REFUTED by the code — the threefold detector misses the canonical
third occurrence.  After the knight shuffle Nf3 Nf6 Ng1 Ng8 Nf3 Nf6 Ng1 Ng8
the start position stands for the third time (it equals the positions after
0 and 4 plies), and the matching truncated hashes are present in
`positionHistory` at indices 3 and 7; but the scan starts at
`totalHalfmoves - 4 = 4` and steps by 2, visiting only indices 4, 2, 0,
whose entries belong to positions with the other side to move, so
`isDrawByThreefoldRepitition` returns `false` for either value of its
uninitialized local `repititionFound`. -/
theorem threefold_not_reported_on_third_occurrence :
    samePosition startBoard s4 = true ∧
    samePosition startBoard s8 = true ∧
    arrGet s8.halfmovesSincePawnMoveOrCapture (s8.hmspmocIndex - 1) = 8 ∧
    arrGetN s8.positionHistory 3 = s8.zobrist % 2 ^ 32 ∧
    arrGetN s8.positionHistory 7 = s8.zobrist % 2 ^ 32 ∧
    isDrawByThreefoldRepitition false s8 = false ∧
    isDrawByThreefoldRepitition true s8 = false := by
  decide

/-- C4: REFUTED by the code — the fifty-move detector fires once the
halfmove clock reaches 50 plies (25 full moves), not 100 plies.  From a
position whose clock reads 49, one quiet knight move brings the clock to 50
and `isDrawByFiftyMoveRule` already reports a draw. -/
theorem fifty_move_rule_fires_at_50_plies :
    isDrawByFiftyMoveRule fiftyBoard = false ∧
    arrGet (boardStep fiftyBoard 7 22).halfmovesSincePawnMoveOrCapture
      ((boardStep fiftyBoard 7 22).hmspmocIndex - 1) = 50 ∧
    isDrawByFiftyMoveRule (boardStep fiftyBoard 7 22) = true := by
  decide

/-- C5: REFUTED by the code — the FEN round trip breaks on reachable states
with 18 or more plies.  `asFEN` emits the full move number as the single
character `'1' + totalHalfmoves / 2`; for the state reached by the 18-ply
knight shuffle that character is `':'`, and re-parsing the serialized
string fails (`std::stoi` finds no digit in the full move field), so
`serialize(parse(serialize(state)))` is not even defined, let alone equal to
`serialize(state)`. -/
theorem fen_roundtrip_fails_at_ply_18 :
    s18.totalHalfmoves = 18 ∧
    (asFEN s18).data.getLast? = some ':' ∧
    (initializeFen emptyBoard (asFEN s18)).isOk = false := by
  decide

/-- C6 counterexample: the position hash has no en-passant component.  The
two parsed states differ only in the en-passant field of their FEN strings;
they agree on placement, counters, and castling rights, differ in the
recorded en-passant square, and still carry the same `zobrist` value. -/
theorem zobrist_ignores_en_passant :
    epFENBoardA.zobrist = epFENBoardB.zobrist ∧
    epFENBoardA.peices = epFENBoardB.peices ∧
    epFENBoardA.totalHalfmoves = epFENBoardB.totalHalfmoves ∧
    epFENBoardA.kingsideCastlingRightsLost = epFENBoardB.kingsideCastlingRightsLost ∧
    epFENBoardA.queensideCastlingRightsLost = epFENBoardB.queensideCastlingRightsLost ∧
    epFENBoardA.halfmovesSincePawnMoveOrCapture =
      epFENBoardB.halfmovesSincePawnMoveOrCapture ∧
    arrGet epFENBoardA.eligibleEnPassantSquare 1 = 20 ∧
    arrGet epFENBoardB.eligibleEnPassantSquare 1 = -1 := by
  decide

/-- C7 counterexample: a parse error does not leave the board unchanged.
On `badColorFEN` the placement field has already been written into the
board when the malformed active-color field raises, so the failed call
leaves a partially updated state (square a1 now differs from its value in
the pre-call board). -/
theorem initializeFen_error_leaves_partial_state :
    (initializeFen emptyBoard badColorFEN).isOk = false ∧
    arrGet c7Result.2.peices 0 ≠ arrGet emptyBoard.peices 0 := by
  decide

/-- C7 as amended: when `initializeFen` raises, the exception propagates but
the board keeps every mutation made before the failing field — here the
parsed placement (kings on a1 and h1) and the reset hash and piece counts
from the initial member reset. -/
theorem initializeFen_error_keeps_parsed_prefix :
    c7Result.1 = "Unrecognised charecter in FEN active color" ∧
    arrGet c7Result.2.peices 0 = WHITE + KING ∧
    arrGet c7Result.2.peices 7 = BLACK + KING ∧
    c7Result.2.zobrist = 0 ∧
    arrGet c7Result.2.numPeices 6 = 0 := by
  decide

/-- C8: REFUTED by the code — `Move::operator==` is not even reflexive.
Because `==` binds tighter than `&` in C++, its third conjunct is
`flags & (PROMOTION == (other.flags & PROMOTION))`, which is `0` for every
move the generator builds, so a move does not compare equal to itself even
though start, target, and promotion trivially match. -/
theorem moveEqOp_not_reflexive :
    Move.eqOp (mkMove startBoard 12 20 0) (mkMove startBoard 12 20 0) = false := by
  decide

/-! ## Helper lemmas about array reads and writes -/

theorem getD_set_self {α : Type} (l : List α) (i : Nat) (v d : α) (h : i < l.length) :
    (l.set i v).getD i d = v := by
  rw [List.getD_eq_getElem?_getD, List.getElem?_set_self h]
  rfl

theorem getD_set_ne {α : Type} (l : List α) {i j : Nat} (v d : α) (h : i ≠ j) :
    (l.set i v).getD j d = l.getD j d := by
  rw [List.getD_eq_getElem?_getD, List.getElem?_set_ne h, ← List.getD_eq_getElem?_getD]

theorem set_getD_self {α : Type} (l : List α) (n : Nat) (d : α) :
    l.set n (l.getD n d) = l := by
  induction l generalizing n with
  | nil => rfl
  | cons a t ih =>
    cases n with
    | zero => rfl
    | succ n =>
      show a :: t.set n ((a :: t).getD (n + 1) d) = a :: t
      rw [List.getD_cons_succ, ih]

theorem arrGet_arrSet_self (l : List Int) (i v : Int) (h : i.toNat < l.length) :
    arrGet (arrSet l i v) i = v := getD_set_self l i.toNat v 0 h

theorem arrGet_arrSet_ne (l : List Int) {i j : Int} (v : Int) (h : i.toNat ≠ j.toNat) :
    arrGet (arrSet l i v) j = arrGet l j := getD_set_ne l v 0 h

theorem arrSet_arrSet (l : List Int) (i v w : Int) :
    arrSet (arrSet l i v) i w = arrSet l i w := List.set_set v w l i.toNat

theorem arrSet_comm (l : List Int) {i j : Int} (v w : Int) (h : i.toNat ≠ j.toNat) :
    arrSet (arrSet l i v) j w = arrSet (arrSet l j w) i v := List.set_comm v w l h

theorem arrSet_arrGet_self (l : List Int) (i : Int) :
    arrSet l i (arrGet l i) = l := set_getD_self l i.toNat 0

theorem arrSet_length (l : List Int) (i v : Int) :
    (arrSet l i v).length = l.length := List.length_set l i.toNat v

theorem arrGetN_arrSetN_ne (l : List Nat) {i j : Int} (v : Nat) (h : i.toNat ≠ j.toNat) :
    arrGetN (arrSetN l i v) j = arrGetN l j := getD_set_ne l v 0 h

/-- The rook origin square of the castling block of `makeMove`/`unmakeMove`
(`castlingRank` or `castlingRank + 7`). -/
def castleRookStart (m : Move) : Int :=
  if m.targetSquare % 8 < 4 then iand m.targetSquare 248 else iand m.targetSquare 248 + 7

/-- The rook destination square of the castling block
(`castlingRank + 3` or `castlingRank + 5`). -/
def castleRookEnd (m : Move) : Int :=
  if m.targetSquare % 8 < 4 then iand m.targetSquare 248 + 3 else iand m.targetSquare 248 + 5

/-- Conditions satisfied by every move the generator emits for a reachable
board: the constructor invariants (`movingPeice`/`capturedPeice` record what
stands on the squares, en-passant resolution), the geometric shape of
special moves, the accelerator invariants (`kingIndex`, rights-loss plies
never exceed the current ply), and the C++ array lengths.  These are the
hypotheses under which apply/reverse is an exact inverse on the live state. -/
structure MoveOK (b : Board) (m : Move) : Prop where
  moving_eq : m.movingPeice = arrGet b.peices m.startSquare
  moving_kind_lo : 1 ≤ m.movingPeice % 8
  moving_kind_hi : m.movingPeice % 8 ≤ 6
  moving_color : m.movingPeice / 8 = 0 ∨ m.movingPeice / 8 = 1
  start_lo : 0 ≤ m.startSquare
  start_hi : m.startSquare < 64
  target_lo : 0 ≤ m.targetSquare
  target_hi : m.targetSquare < 64
  start_ne_target : m.startSquare ≠ m.targetSquare
  promo_range : m.promotion = 0 ∨ (2 ≤ m.promotion ∧ m.promotion ≤ 5)
  promo_pawn : m.promotion ≠ 0 → m.movingPeice % 8 = PAWN
  captured_eq : m.isEnPassant = false → m.capturedPeice = arrGet b.peices m.targetSquare
  captured_enemy : m.capturedPeice ≠ 0 →
    m.capturedPeice / 8 = (if m.movingPeice / 8 = 0 then 1 else 0)
  captured_kind_lo : m.capturedPeice ≠ 0 → 1 ≤ m.capturedPeice % 8
  captured_kind_hi : m.capturedPeice ≠ 0 → m.capturedPeice % 8 ≤ 6
  ep_target_empty : m.isEnPassant = true → arrGet b.peices m.targetSquare = 0
  ep_captured_at : m.isEnPassant = true →
    arrGet b.peices (m.targetSquare - 8 + 16 * (m.movingPeice / 8)) = m.capturedPeice
  ep_capsq_lo : m.isEnPassant = true → 0 ≤ m.targetSquare - 8 + 16 * (m.movingPeice / 8)
  ep_capsq_hi : m.isEnPassant = true → m.targetSquare - 8 + 16 * (m.movingPeice / 8) < 64
  ep_capsq_ne_start : m.isEnPassant = true →
    m.targetSquare - 8 + 16 * (m.movingPeice / 8) ≠ m.startSquare
  ep_no_promo : m.isEnPassant = true → m.promotion = 0
  not_ep_and_castle : ¬(m.isEnPassant = true ∧ m.isCastling = true)
  castle_geom : m.isCastling = true →
    (m.startSquare = 4 ∧ (m.targetSquare = 2 ∨ m.targetSquare = 6)) ∨
      (m.startSquare = 60 ∧ (m.targetSquare = 58 ∨ m.targetSquare = 62))
  castle_no_promo : m.isCastling = true → m.promotion = 0
  castle_rook_at : m.isCastling = true →
    arrGet b.peices (castleRookStart m) = m.movingPeice / 8 * 8 + ROOK
  castle_rookEnd_empty : m.isCastling = true → arrGet b.peices (castleRookEnd m) = 0
  king_at : m.movingPeice % 8 = KING → arrGet b.kingIndex (m.movingPeice / 8) = m.startSquare
  len_peices : b.peices.length = 64
  total_nonneg : 0 ≤ b.totalHalfmoves
  rights_ks0 : arrGet b.kingsideCastlingRightsLost 0 ≤ b.totalHalfmoves
  rights_ks1 : arrGet b.kingsideCastlingRightsLost 1 ≤ b.totalHalfmoves
  rights_qs0 : arrGet b.queensideCastlingRightsLost 0 ≤ b.totalHalfmoves
  rights_qs1 : arrGet b.queensideCastlingRightsLost 1 ≤ b.totalHalfmoves
  len_ks : b.kingsideCastlingRightsLost.length = 2
  len_qs : b.queensideCastlingRightsLost.length = 2
  len_np : b.numPeices.length = 15
  len_ntp : b.numTotalPeices.length = 2
  hmspmoc_pos : 1 ≤ b.hmspmocIndex
  hmspmoc_lt : (b.hmspmocIndex - 1).toNat < b.halfmovesSincePawnMoveOrCapture.length

/-- Collapse of the castling peices updates of `makeMove` followed by
`unmakeMove` (generic in the four squares; `S`, `T` are the king squares and
`RS`, `RE` the rook squares of the castling block). -/
theorem castle_chain (p : List Int) (S T RS RE mov cap : Int)
    (hlen : p.length = 64)
    (hTS : T.toNat ≠ S.toNat) (hRS_S : RS.toNat ≠ S.toNat) (hRS_T : RS.toNat ≠ T.toNat)
    (hRE_S : RE.toNat ≠ S.toNat) (hRE_T : RE.toNat ≠ T.toNat) (hRE_RS : RE.toNat ≠ RS.toNat)
    (hRE_lt : RE.toNat < 64)
    (hmv : arrSet p S mov = p) (hcap : cap = arrGet p T) (hre : arrGet p RE = 0) :
    arrSet (arrSet (arrSet (arrSet (arrSet (arrSet (arrSet (arrSet p S 0) T mov) RE
        (arrGet (arrSet (arrSet p S 0) T mov) RS)) RS 0) S mov) T cap) RS
        (arrGet (arrSet (arrSet (arrSet (arrSet (arrSet (arrSet p S 0) T mov) RE
          (arrGet (arrSet (arrSet p S 0) T mov) RS)) RS 0) S mov) T cap) RE)) RE 0 = p := by
  have hg1 : arrGet (arrSet (arrSet p S 0) T mov) RS = arrGet p RS := by
    rw [arrGet_arrSet_ne _ _ (Ne.symm hRS_T), arrGet_arrSet_ne _ _ (Ne.symm hRS_S)]
  rw [hg1]
  rw [arrGet_arrSet_ne _ _ (Ne.symm hRE_T), arrGet_arrSet_ne _ _ (Ne.symm hRE_S),
    arrGet_arrSet_ne _ _ (Ne.symm hRE_RS),
    arrGet_arrSet_self _ _ _ (by rw [arrSet_length, arrSet_length, hlen]; omega)]
  rw [arrSet_comm _ _ _ hRS_S]
  rw [arrSet_comm _ _ _ hRE_S]
  rw [arrSet_comm _ _ _ hTS]
  rw [arrSet_arrSet]
  rw [hmv]
  rw [arrSet_comm _ _ _ hRS_T]
  rw [arrSet_comm _ _ _ hRE_T]
  rw [arrSet_arrSet]
  rw [arrSet_arrSet]
  rw [hcap, arrSet_arrGet_self]
  rw [arrSet_comm _ _ _ hRE_RS]
  rw [arrSet_arrSet]
  rw [arrSet_arrGet_self]
  rw [← hre, arrSet_arrGet_self]

/-- Applying then reversing a generated move restores the `peices` array
exactly. -/
theorem mk_unmk_peices (b : Board) (m : Move) (h : MoveOK b m) :
    (unmakeMove (makeMove b m) m).peices = b.peices := by
  have hst := h.start_ne_target
  have hs0 := h.start_lo
  have hs1 := h.start_hi
  have ht0 := h.target_lo
  have ht1 := h.target_hi
  have hTS : m.targetSquare.toNat ≠ m.startSquare.toNat := by omega
  have hmv : arrSet b.peices m.startSquare m.movingPeice = b.peices := by
    rw [h.moving_eq, arrSet_arrGet_self]
  by_cases hep : m.isEnPassant = true
  · have hnc : m.isCastling = false := by
      rcases Bool.eq_false_or_eq_true m.isCastling with h' | h'
      · exact absurd ⟨hep, h'⟩ h.not_ep_and_castle
      · exact h'
    have hpr : m.promotion = 0 := h.ep_no_promo hep
    have hcs0 := h.ep_capsq_lo hep
    have hcs1 := h.ep_capsq_hi hep
    have hcsS := h.ep_capsq_ne_start hep
    have hte := h.ep_target_empty hep
    have hcap := h.ep_captured_at hep
    have hcsT : m.targetSquare - 8 + 16 * (m.movingPeice / 8) ≠ m.targetSquare := by
      rcases h.moving_color with h' | h' <;> omega
    have hCS : (m.targetSquare - 8 + 16 * (m.movingPeice / 8)).toNat ≠ m.startSquare.toNat := by
      omega
    have hCT : (m.targetSquare - 8 + 16 * (m.movingPeice / 8)).toNat ≠ m.targetSquare.toNat := by
      omega
    simp only [makeMove, unmakeMove, hep, hnc, hpr, if_true, if_false, Bool.false_eq_true,
      ite_false, ite_true, ne_eq, not_true_eq_false, not_false_eq_true,
      Move.start, Move.target, Move.moving, Move.captured]
    rw [arrSet_arrSet, arrSet_comm _ _ _ hCS, arrSet_comm _ _ _ hTS, arrSet_arrSet, hmv,
      arrSet_comm _ _ _ hCT, arrSet_arrSet, arrSet_arrSet, ← hte, arrSet_arrGet_self,
      ← hcap, arrSet_arrGet_self]
  · have hepf : m.isEnPassant = false := by
      rcases Bool.eq_false_or_eq_true m.isEnPassant with h' | h'
      · exact absurd h' hep
      · exact h'
    have hcap : m.capturedPeice = arrGet b.peices m.targetSquare := h.captured_eq hepf
    by_cases hca : m.isCastling = true
    · have hpr : m.promotion = 0 := h.castle_no_promo hca
      have hrook := h.castle_rook_at hca
      have hre := h.castle_rookEnd_empty hca
      have hlen := h.len_peices
      rcases h.castle_geom hca with ⟨hS, hT | hT⟩ | ⟨hS, hT | hT⟩ <;>
        simp only [hS, hT] at hmv hcap hre ⊢ <;>
        simp only [makeMove, unmakeMove, hepf, hca, hpr, hS, hT, castleRookStart,
          castleRookEnd, if_true, if_false, Bool.false_eq_true, ite_false, ite_true, ne_eq,
          not_true_eq_false, not_false_eq_true,
          Move.start, Move.target, Move.moving, Move.captured] at hre ⊢ <;>
        norm_num [show iand (2:Int) 248 = 0 from by decide,
          show iand (6:Int) 248 = 0 from by decide,
          show iand (58:Int) 248 = 56 from by decide,
          show iand (62:Int) 248 = 56 from by decide] at hre ⊢
      · exact castle_chain b.peices 4 2 0 3 m.movingPeice m.capturedPeice hlen
          (by decide) (by decide) (by decide) (by decide) (by decide) (by decide) (by decide)
          hmv hcap hre
      · exact castle_chain b.peices 4 6 7 5 m.movingPeice m.capturedPeice hlen
          (by decide) (by decide) (by decide) (by decide) (by decide) (by decide) (by decide)
          hmv hcap hre
      · exact castle_chain b.peices 60 58 56 59 m.movingPeice m.capturedPeice hlen
          (by decide) (by decide) (by decide) (by decide) (by decide) (by decide) (by decide)
          hmv hcap hre
      · exact castle_chain b.peices 60 62 63 61 m.movingPeice m.capturedPeice hlen
          (by decide) (by decide) (by decide) (by decide) (by decide) (by decide) (by decide)
          hmv hcap hre
    · have hcaf : m.isCastling = false := by
        rcases Bool.eq_false_or_eq_true m.isCastling with h' | h'
        · exact absurd h' hca
        · exact h'
      simp only [makeMove, unmakeMove, hepf, hcaf, if_true, if_false, Bool.false_eq_true,
        ite_false, ite_true, ne_eq, not_true_eq_false, not_false_eq_true,
        Move.start, Move.target, Move.moving, Move.captured]
      rw [arrSet_comm _ _ _ hTS, arrSet_arrSet, arrSet_arrSet, hmv, hcap, arrSet_arrGet_self]

theorem arrSet_zero_self (l : List Int) (i : Int) (h : arrGet l i = 0) : arrSet l i 0 = l := by
  rw [← h, arrSet_arrGet_self]

theorem rights_roundtrip (l : List Int) (c e T : Int) (P Q : Prop) [Decidable P] [Decidable Q]
    (hce : c.toNat ≠ e.toNat) (hlc : c.toNat < l.length) (hle : e.toNat < l.length)
    (hvc : arrGet l c ≤ T) (hve : arrGet l e ≤ T)
    (hP : P → arrGet l c = 0) (hQ : Q → arrGet l e = 0) :
    (let l1 := if P then arrSet l c (T + 1) else l
     let l2 := if Q then arrSet l1 e (T + 1) else l1
     let l3 := if arrGet l2 c = T + 1 then arrSet l2 c 0 else l2
     if arrGet l3 e = T + 1 then arrSet l3 e 0 else l3) = l := by
  by_cases hp : P <;> by_cases hq : Q <;>
    simp only [hp, hq, if_true, if_false, ite_true, ite_false]
  · have g1 : arrGet (arrSet (arrSet l c (T + 1)) e (T + 1)) c = T + 1 := by
      rw [arrGet_arrSet_ne _ _ (Ne.symm hce), arrGet_arrSet_self _ _ _ hlc]
    rw [g1, if_pos rfl]
    have g2 : arrGet (arrSet (arrSet (arrSet l c (T + 1)) e (T + 1)) c 0) e = T + 1 := by
      rw [arrGet_arrSet_ne _ _ hce,
        arrGet_arrSet_self _ _ _ (by rw [arrSet_length]; exact hle)]
    rw [g2, if_pos rfl]
    rw [arrSet_comm _ _ _ (Ne.symm hce), arrSet_arrSet, arrSet_arrSet]
    rw [arrSet_zero_self _ _ (by rw [arrGet_arrSet_ne _ _ hce]; exact hQ hq)]
    rw [arrSet_zero_self _ _ (hP hp)]
  · have g1 : arrGet (arrSet l c (T + 1)) c = T + 1 := arrGet_arrSet_self _ _ _ hlc
    rw [g1, if_pos rfl]
    have g2 : arrGet (arrSet (arrSet l c (T + 1)) c 0) e = arrGet l e := by
      rw [arrSet_arrSet, arrGet_arrSet_ne _ _ hce]
    have hn2 : ¬(arrGet l e = T + 1) := by omega
    rw [g2, if_neg hn2, arrSet_arrSet]
    rw [arrSet_zero_self _ _ (hP hp)]
  · have g1 : arrGet (arrSet l e (T + 1)) c = arrGet l c := by
      rw [arrGet_arrSet_ne _ _ (Ne.symm hce)]
    have hn1 : ¬(arrGet l c = T + 1) := by omega
    rw [g1, if_neg hn1]
    have g2 : arrGet (arrSet l e (T + 1)) e = T + 1 := arrGet_arrSet_self _ _ _ hle
    rw [g2, if_pos rfl, arrSet_arrSet]
    rw [arrSet_zero_self _ _ (hQ hq)]
  · have hn1 : ¬(arrGet l c = T + 1) := by omega
    have hn2 : ¬(arrGet l e = T + 1) := by omega
    rw [if_neg hn1, if_neg hn2]

theorem mk_unmk_ks (b : Board) (m : Move) (h : MoveOK b m) :
    (unmakeMove (makeMove b m) m).kingsideCastlingRightsLost =
      b.kingsideCastlingRightsLost := by
  have hce : (m.movingPeice / 8).toNat ≠
      (if (m.movingPeice / 8 * 8 : Int) = 0 then (1 : Int) else 0).toNat := by
    rcases h.moving_color with h' | h' <;> simp [h']
  have hlc : (m.movingPeice / 8).toNat < b.kingsideCastlingRightsLost.length := by
    rcases h.moving_color with h' | h' <;> simp [h', h.len_ks]
  have hle : ((if (m.movingPeice / 8 * 8 : Int) = 0 then (1 : Int) else 0)).toNat <
      b.kingsideCastlingRightsLost.length := by
    rcases h.moving_color with h' | h' <;> simp [h', h.len_ks]
  have hvc : arrGet b.kingsideCastlingRightsLost (m.movingPeice / 8) ≤ b.totalHalfmoves := by
    rcases h.moving_color with h' | h' <;> rw [h']
    · exact h.rights_ks0
    · exact h.rights_ks1
  have hve : arrGet b.kingsideCastlingRightsLost
      (if (m.movingPeice / 8 * 8 : Int) = 0 then (1 : Int) else 0) ≤ b.totalHalfmoves := by
    rcases h.moving_color with h' | h' <;> simp only [h']
    · norm_num
      exact h.rights_ks1
    · norm_num
      exact h.rights_ks0
  simp only [makeMove, unmakeMove, Move.moving, Move.start, Move.target, Move.captured]
  have hrd : arrGet
      (if arrGet b.kingsideCastlingRightsLost (m.movingPeice / 8) = 0 ∧
          (m.movingPeice = m.movingPeice / 8 * 8 + KING ∨
            m.movingPeice = m.movingPeice / 8 * 8 + ROOK ∧
              if m.movingPeice / 8 * 8 = WHITE then m.startSquare = 7
              else m.startSquare = 63) then
        arrSet b.kingsideCastlingRightsLost (m.movingPeice / 8) (b.totalHalfmoves + 1)
      else b.kingsideCastlingRightsLost)
      (if (m.movingPeice / 8 * 8 : Int) = 0 then (1 : Int) else 0) =
      arrGet b.kingsideCastlingRightsLost
        (if (m.movingPeice / 8 * 8 : Int) = 0 then (1 : Int) else 0) := by
    by_cases hh : arrGet b.kingsideCastlingRightsLost (m.movingPeice / 8) = 0 ∧
        (m.movingPeice = m.movingPeice / 8 * 8 + KING ∨
          m.movingPeice = m.movingPeice / 8 * 8 + ROOK ∧
            if m.movingPeice / 8 * 8 = WHITE then m.startSquare = 7
            else m.startSquare = 63)
    · rw [if_pos hh, arrGet_arrSet_ne _ _ hce]
    · rw [if_neg hh]
  rw [hrd]
  exact rights_roundtrip b.kingsideCastlingRightsLost (m.movingPeice / 8)
    (if (m.movingPeice / 8 * 8 : Int) = 0 then (1 : Int) else 0) b.totalHalfmoves
    _ _ hce hlc hle hvc hve (fun hp => hp.1) (fun hq => hq.1)

theorem mk_unmk_qs (b : Board) (m : Move) (h : MoveOK b m) :
    (unmakeMove (makeMove b m) m).queensideCastlingRightsLost =
      b.queensideCastlingRightsLost := by
  have hce : (m.movingPeice / 8).toNat ≠
      (if (m.movingPeice / 8 * 8 : Int) = 0 then (1 : Int) else 0).toNat := by
    rcases h.moving_color with h' | h' <;> simp [h']
  have hlc : (m.movingPeice / 8).toNat < b.queensideCastlingRightsLost.length := by
    rcases h.moving_color with h' | h' <;> simp [h', h.len_qs]
  have hle : ((if (m.movingPeice / 8 * 8 : Int) = 0 then (1 : Int) else 0)).toNat <
      b.queensideCastlingRightsLost.length := by
    rcases h.moving_color with h' | h' <;> simp [h', h.len_qs]
  have hvc : arrGet b.queensideCastlingRightsLost (m.movingPeice / 8) ≤ b.totalHalfmoves := by
    rcases h.moving_color with h' | h' <;> rw [h']
    · exact h.rights_qs0
    · exact h.rights_qs1
  have hve : arrGet b.queensideCastlingRightsLost
      (if (m.movingPeice / 8 * 8 : Int) = 0 then (1 : Int) else 0) ≤ b.totalHalfmoves := by
    rcases h.moving_color with h' | h' <;> simp only [h']
    · norm_num
      exact h.rights_qs1
    · norm_num
      exact h.rights_qs0
  simp only [makeMove, unmakeMove, Move.moving, Move.start, Move.target, Move.captured]
  have hrd : arrGet
      (if arrGet b.queensideCastlingRightsLost (m.movingPeice / 8) = 0 ∧
          (m.movingPeice = m.movingPeice / 8 * 8 + KING ∨
            m.movingPeice = m.movingPeice / 8 * 8 + ROOK ∧
              if m.movingPeice / 8 * 8 = WHITE then m.startSquare = 0
              else m.startSquare = 56) then
        arrSet b.queensideCastlingRightsLost (m.movingPeice / 8) (b.totalHalfmoves + 1)
      else b.queensideCastlingRightsLost)
      (if (m.movingPeice / 8 * 8 : Int) = 0 then (1 : Int) else 0) =
      arrGet b.queensideCastlingRightsLost
        (if (m.movingPeice / 8 * 8 : Int) = 0 then (1 : Int) else 0) := by
    by_cases hh : arrGet b.queensideCastlingRightsLost (m.movingPeice / 8) = 0 ∧
        (m.movingPeice = m.movingPeice / 8 * 8 + KING ∨
          m.movingPeice = m.movingPeice / 8 * 8 + ROOK ∧
            if m.movingPeice / 8 * 8 = WHITE then m.startSquare = 0
            else m.startSquare = 56)
    · rw [if_pos hh, arrGet_arrSet_ne _ _ hce]
    · rw [if_neg hh]
  rw [hrd]
  exact rights_roundtrip b.queensideCastlingRightsLost (m.movingPeice / 8)
    (if (m.movingPeice / 8 * 8 : Int) = 0 then (1 : Int) else 0) b.totalHalfmoves
    _ _ hce hlc hle hvc hve (fun hp => hp.1) (fun hq => hq.1)

theorem np_roundtrip (l : List Int) (mv pr cp : Int) (P C : Prop) [Decidable P] [Decidable C]
    (hmp : P → mv.toNat ≠ pr.toNat) (hmc : C → mv.toNat ≠ cp.toNat)
    (hpc : P → C → pr.toNat ≠ cp.toNat)
    (hlm : P → mv.toNat < l.length) (hlp : P → pr.toNat < l.length)
    (hlc : C → cp.toNat < l.length) :
    (let n1 := if P then
        arrSet (arrSet l mv (arrGet l mv - 1)) pr
          (arrGet (arrSet l mv (arrGet l mv - 1)) pr + 1)
      else l
     let n2 := if C then arrSet n1 cp (arrGet n1 cp - 1) else n1
     let u1 := if P then
        arrSet (arrSet n2 mv (arrGet n2 mv + 1)) pr
          (arrGet (arrSet n2 mv (arrGet n2 mv + 1)) pr - 1)
      else n2
     if C then arrSet u1 cp (arrGet u1 cp + 1) else u1) = l := by
  by_cases hp : P <;> by_cases hc : C <;>
    simp only [hp, hc, if_true, if_false, ite_true, ite_false]
  · have nmp := hmp hp
    have nmc := hmc hc
    have npc := hpc hp hc
    have e1 : arrGet (arrSet l mv (arrGet l mv - 1)) pr = arrGet l pr :=
      arrGet_arrSet_ne _ _ nmp
    rw [e1]
    have c1 : arrGet (arrSet (arrSet l mv (arrGet l mv - 1)) pr (arrGet l pr + 1)) cp
        = arrGet l cp := by
      rw [arrGet_arrSet_ne _ _ npc, arrGet_arrSet_ne _ _ nmc]
    rw [c1]
    have e2 : arrGet (arrSet (arrSet (arrSet l mv (arrGet l mv - 1)) pr (arrGet l pr + 1))
        cp (arrGet l cp - 1)) mv = arrGet l mv - 1 := by
      rw [arrGet_arrSet_ne _ _ (Ne.symm nmc), arrGet_arrSet_ne _ _ (Ne.symm nmp),
        arrGet_arrSet_self _ _ _ (hlm hp)]
    rw [e2]
    have hv1 : arrGet l mv - 1 + 1 = arrGet l mv := by omega
    rw [hv1]
    have e3 : arrGet (arrSet (arrSet (arrSet (arrSet l mv (arrGet l mv - 1)) pr
        (arrGet l pr + 1)) cp (arrGet l cp - 1)) mv (arrGet l mv)) pr = arrGet l pr + 1 := by
      rw [arrGet_arrSet_ne _ _ nmp, arrGet_arrSet_ne _ _ (Ne.symm npc),
        arrGet_arrSet_self _ _ _ (by rw [arrSet_length]; exact hlp hp)]
    rw [e3]
    have hv2 : arrGet l pr + 1 - 1 = arrGet l pr := by omega
    rw [hv2]
    have e4 : arrGet (arrSet (arrSet (arrSet (arrSet (arrSet l mv (arrGet l mv - 1)) pr
        (arrGet l pr + 1)) cp (arrGet l cp - 1)) mv (arrGet l mv)) pr (arrGet l pr)) cp
        = arrGet l cp - 1 := by
      rw [arrGet_arrSet_ne _ _ npc, arrGet_arrSet_ne _ _ nmc,
        arrGet_arrSet_self _ _ _ (by rw [arrSet_length, arrSet_length]; exact hlc hc)]
    rw [e4]
    have hv3 : arrGet l cp - 1 + 1 = arrGet l cp := by omega
    rw [hv3]
    rw [arrSet_comm _ _ _ (Ne.symm nmc)]
    rw [arrSet_comm _ _ _ (Ne.symm npc)]
    rw [arrSet_arrSet]
    rw [arrSet_comm _ _ _ (Ne.symm nmp)]
    rw [arrSet_arrSet, arrSet_arrSet]
    rw [arrSet_arrGet_self, arrSet_arrGet_self, arrSet_arrGet_self]
  · have nmp := hmp hp
    have e1 : arrGet (arrSet l mv (arrGet l mv - 1)) pr = arrGet l pr :=
      arrGet_arrSet_ne _ _ nmp
    rw [e1]
    have e2 : arrGet (arrSet (arrSet l mv (arrGet l mv - 1)) pr (arrGet l pr + 1)) mv
        = arrGet l mv - 1 := by
      rw [arrGet_arrSet_ne _ _ (Ne.symm nmp), arrGet_arrSet_self _ _ _ (hlm hp)]
    rw [e2]
    have hv1 : arrGet l mv - 1 + 1 = arrGet l mv := by omega
    rw [hv1]
    have e3 : arrGet (arrSet (arrSet (arrSet l mv (arrGet l mv - 1)) pr
        (arrGet l pr + 1)) mv (arrGet l mv)) pr = arrGet l pr + 1 := by
      rw [arrGet_arrSet_ne _ _ nmp,
        arrGet_arrSet_self _ _ _ (by rw [arrSet_length]; exact hlp hp)]
    rw [e3]
    have hv2 : arrGet l pr + 1 - 1 = arrGet l pr := by omega
    rw [hv2]
    rw [arrSet_comm _ _ _ (Ne.symm nmp)]
    rw [arrSet_arrSet, arrSet_arrSet]
    rw [arrSet_arrGet_self, arrSet_arrGet_self]
  · rw [arrGet_arrSet_self _ _ _ (hlc hc)]
    rw [arrSet_arrSet]
    have hv : arrGet l cp - 1 + 1 = arrGet l cp := by omega
    rw [hv, arrSet_arrGet_self]

theorem mk_unmk_numPeices (b : Board) (m : Move) (h : MoveOK b m) :
    (unmakeMove (makeMove b m) m).numPeices = b.numPeices := by
  have hk1 := h.moving_kind_lo
  have hk2 := h.moving_kind_hi
  have hmp : m.promotion ≠ 0 →
      m.movingPeice.toNat ≠ (m.movingPeice / 8 * 8 + m.promotion).toNat := by
    intro hp
    have hpw : m.movingPeice % 8 = 1 := h.promo_pawn hp
    rcases h.promo_range with h0 | hr
    · exact absurd h0 hp
    rcases h.moving_color with h' | h' <;> omega
  have hmc : m.capturedPeice ≠ 0 →
      m.movingPeice.toNat ≠ m.capturedPeice.toNat := by
    intro hcp
    have he := h.captured_enemy hcp
    have hck1 := h.captured_kind_lo hcp
    have hck2 := h.captured_kind_hi hcp
    rcases h.moving_color with h' | h' <;> rw [h'] at he <;> simp at he <;> omega
  have hpc : m.promotion ≠ 0 → m.capturedPeice ≠ 0 →
      (m.movingPeice / 8 * 8 + m.promotion).toNat ≠ m.capturedPeice.toNat := by
    intro hp hcp
    have he := h.captured_enemy hcp
    have hck1 := h.captured_kind_lo hcp
    have hck2 := h.captured_kind_hi hcp
    rcases h.promo_range with h0 | hr
    · exact absurd h0 hp
    rcases h.moving_color with h' | h' <;> rw [h'] at he <;> simp at he <;> omega
  have hlm : m.promotion ≠ 0 → m.movingPeice.toNat < b.numPeices.length := by
    intro hp
    rw [h.len_np]
    rcases h.moving_color with h' | h' <;> omega
  have hlp : m.promotion ≠ 0 →
      (m.movingPeice / 8 * 8 + m.promotion).toNat < b.numPeices.length := by
    intro hp
    rw [h.len_np]
    rcases h.promo_range with h0 | hr
    · exact absurd h0 hp
    rcases h.moving_color with h' | h' <;> omega
  have hlc : m.capturedPeice ≠ 0 → m.capturedPeice.toNat < b.numPeices.length := by
    intro hcp
    rw [h.len_np]
    have he := h.captured_enemy hcp
    have hck1 := h.captured_kind_lo hcp
    have hck2 := h.captured_kind_hi hcp
    rcases h.moving_color with h' | h' <;> rw [h'] at he <;> simp at he <;> omega
  simp only [makeMove, unmakeMove, Move.moving, Move.captured]
  exact np_roundtrip b.numPeices m.movingPeice (m.movingPeice / 8 * 8 + m.promotion)
    m.capturedPeice _ _ hmp hmc hpc hlm hlp hlc

theorem mk_unmk_total (b : Board) (m : Move) :
    (unmakeMove (makeMove b m) m).totalHalfmoves = b.totalHalfmoves := by
  simp only [makeMove, unmakeMove]
  omega

theorem mk_unmk_hmspmoc (b : Board) (m : Move) :
    (unmakeMove (makeMove b m) m).hmspmocIndex = b.hmspmocIndex := by
  simp only [makeMove, unmakeMove]
  split_ifs <;> omega

theorem mk_unmk_kingIndex (b : Board) (m : Move) (h : MoveOK b m) :
    (unmakeMove (makeMove b m) m).kingIndex = b.kingIndex := by
  by_cases hk : m.movingPeice % 8 = KING
  · simp only [makeMove, unmakeMove, Move.moving, Move.start, Move.target, hk,
      ite_true, if_true]
    rw [arrSet_arrSet, ← h.king_at hk, arrSet_arrGet_self]
  · simp only [makeMove, unmakeMove, Move.moving, Move.start, Move.target, hk,
      ite_false, if_false]

theorem mk_unmk_numTotalPeices (b : Board) (m : Move) (h : MoveOK b m) :
    (unmakeMove (makeMove b m) m).numTotalPeices = b.numTotalPeices := by
  by_cases hcp : m.capturedPeice = 0
  · simp only [makeMove, unmakeMove, Move.captured, hcp, ne_eq, not_true_eq_false,
      ite_false, if_false]
  · simp only [makeMove, unmakeMove, Move.moving, Move.captured, hcp, ne_eq,
      not_false_eq_true, ite_true, if_true]
    have he : ((if (m.movingPeice / 8 * 8 : Int) = 0 then (1 : Int) else 0)).toNat <
        b.numTotalPeices.length := by
      rcases h.moving_color with h' | h' <;> simp [h', h.len_ntp]
    rw [arrGet_arrSet_self _ _ _ he]
    have hv : arrGet b.numTotalPeices (if (m.movingPeice / 8 * 8 : Int) = 0 then (1 : Int) else 0)
        - 1 + 1 = arrGet b.numTotalPeices
          (if (m.movingPeice / 8 * 8 : Int) = 0 then (1 : Int) else 0) := by omega
    rw [arrSet_arrSet, hv, arrSet_arrGet_self]

theorem mk_unmk_ep_window (b : Board) (m : Move) (i : Int) (h : MoveOK b m)
    (h0 : 0 ≤ i) (hi : i ≤ b.totalHalfmoves) :
    arrGet (unmakeMove (makeMove b m) m).eligibleEnPassantSquare i =
      arrGet b.eligibleEnPassantSquare i := by
  have hT := h.total_nonneg
  simp only [makeMove, unmakeMove]
  rw [arrGet_arrSet_ne _ _ (by omega)]

theorem mk_unmk_ph_window (b : Board) (m : Move) (i : Int) (h : MoveOK b m)
    (h0 : 0 ≤ i) (hi : i < b.totalHalfmoves) :
    arrGetN (unmakeMove (makeMove b m) m).positionHistory i =
      arrGetN b.positionHistory i := by
  have hT := h.total_nonneg
  simp only [makeMove, unmakeMove]
  rw [arrGetN_arrSetN_ne _ _ (by omega)]

/-- The castling-availability loop never fails on the letters `KQkq`, and a
letter whose king or rook is off its home square leaves the corresponding
rights-lost entry at its incoming value (the loop writes an entry only when
the home condition holds). -/
theorem parseCastling_ok_and_skips (p : List Int) (st : List Int × List Int × Nat)
    (cs : List Char) :
    (∀ ch ∈ cs, ch = 'K' ∨ ch = 'Q' ∨ ch = 'k' ∨ ch = 'q') →
    ∃ out, parseCastlingChars p st cs = .ok out ∧
      (¬(arrGet p 4 = WHITE + KING ∧ arrGet p 7 = WHITE + ROOK) →
        arrGet out.1 0 = arrGet st.1 0) ∧
      (¬(arrGet p 60 = BLACK + KING ∧ arrGet p 63 = BLACK + ROOK) →
        arrGet out.1 1 = arrGet st.1 1) ∧
      (¬(arrGet p 4 = WHITE + KING ∧ arrGet p 0 = WHITE + ROOK) →
        arrGet out.2.1 0 = arrGet st.2.1 0) ∧
      (¬(arrGet p 60 = BLACK + KING ∧ arrGet p 56 = BLACK + ROOK) →
        arrGet out.2.1 1 = arrGet st.2.1 1) := by
  induction cs generalizing st with
  | nil =>
    intro _
    exact ⟨st, rfl, fun _ => rfl, fun _ => rfl, fun _ => rfl, fun _ => rfl⟩
  | cons ch rest ih =>
    intro hcs
    have hch : ch = 'K' ∨ ch = 'Q' ∨ ch = 'k' ∨ ch = 'q' := hcs ch (by simp)
    have htail : ∀ a ∈ rest, a = 'K' ∨ a = 'Q' ∨ a = 'k' ∨ a = 'q' :=
      fun a ha => hcs a (by simp [ha])
    rcases hch with rfl | rfl | rfl | rfl
    · have step : parseCastlingChars p st ('K' :: rest) =
          if arrGet p 4 = WHITE + KING ∧ arrGet p 7 = WHITE + ROOK then
            parseCastlingChars p (arrSet st.1 0 0, st.2.1,
              st.2.2 ^^^ ZOBRIST_KINGSIDE_CASTLING_KEYS 0) rest
          else parseCastlingChars p st rest := rfl
      rw [step]
      split_ifs with hcond
      · obtain ⟨out, hout, h1, h2, h3, h4⟩ := ih _ htail
        exact ⟨out, hout, fun hn => absurd hcond hn,
          fun hn => (h2 hn).trans (arrGet_arrSet_ne _ _ (by decide)), h3, h4⟩
      · exact ih st htail
    · have step : parseCastlingChars p st ('Q' :: rest) =
          if arrGet p 4 = WHITE + KING ∧ arrGet p 0 = WHITE + ROOK then
            parseCastlingChars p (st.1, arrSet st.2.1 0 0,
              st.2.2 ^^^ ZOBRIST_QUEENSIDE_CASTLING_KEYS 0) rest
          else parseCastlingChars p st rest := rfl
      rw [step]
      split_ifs with hcond
      · obtain ⟨out, hout, h1, h2, h3, h4⟩ := ih _ htail
        exact ⟨out, hout, h1, h2, fun hn => absurd hcond hn,
          fun hn => (h4 hn).trans (arrGet_arrSet_ne _ _ (by decide))⟩
      · exact ih st htail
    · have step : parseCastlingChars p st ('k' :: rest) =
          if arrGet p 60 = BLACK + KING ∧ arrGet p 63 = BLACK + ROOK then
            parseCastlingChars p (arrSet st.1 1 0, st.2.1,
              st.2.2 ^^^ ZOBRIST_KINGSIDE_CASTLING_KEYS 1) rest
          else parseCastlingChars p st rest := rfl
      rw [step]
      split_ifs with hcond
      · obtain ⟨out, hout, h1, h2, h3, h4⟩ := ih _ htail
        exact ⟨out, hout,
          fun hn => (h1 hn).trans (arrGet_arrSet_ne _ _ (by decide)),
          fun hn => absurd hcond hn, h3, h4⟩
      · exact ih st htail
    · have step : parseCastlingChars p st ('q' :: rest) =
          if arrGet p 60 = BLACK + KING ∧ arrGet p 56 = BLACK + ROOK then
            parseCastlingChars p (st.1, arrSet st.2.1 1 0,
              st.2.2 ^^^ ZOBRIST_QUEENSIDE_CASTLING_KEYS 1) rest
          else parseCastlingChars p st rest := rfl
      rw [step]
      split_ifs with hcond
      · obtain ⟨out, hout, h1, h2, h3, h4⟩ := ih _ htail
        exact ⟨out, hout, h1, h2,
          fun hn => (h3 hn).trans (arrGet_arrSet_ne _ _ (by decide)),
          fun hn => absurd hcond hn⟩
      · exact ih st htail

/-- C9: a castling letter whose king or rook is not on its home square is
silently ignored.  Generally: on any string of letters `KQkq` the
castling-availability loop of `initializeFen` raises no error, and a letter
whose home condition fails leaves that rights-lost entry at its incoming
value (`-1`, never granted).  Concretely: `looseCastleFEN` lists `K` while
the white king stands on g1; parsing succeeds, white kingside rights stay
never-granted, and serializations omit the letter. -/
theorem castling_letter_without_home_peices_ignored (p : List Int)
    (st : List Int × List Int × Nat) (cs : List Char)
    (hcs : ∀ ch ∈ cs, ch = 'K' ∨ ch = 'Q' ∨ ch = 'k' ∨ ch = 'q') :
    (∃ out, parseCastlingChars p st cs = .ok out ∧
      (¬(arrGet p 4 = WHITE + KING ∧ arrGet p 7 = WHITE + ROOK) →
        arrGet out.1 0 = arrGet st.1 0) ∧
      (¬(arrGet p 60 = BLACK + KING ∧ arrGet p 63 = BLACK + ROOK) →
        arrGet out.1 1 = arrGet st.1 1) ∧
      (¬(arrGet p 4 = WHITE + KING ∧ arrGet p 0 = WHITE + ROOK) →
        arrGet out.2.1 0 = arrGet st.2.1 0) ∧
      (¬(arrGet p 60 = BLACK + KING ∧ arrGet p 56 = BLACK + ROOK) →
        arrGet out.2.1 1 = arrGet st.2.1 1)) ∧
    (initializeFen emptyBoard looseCastleFEN).isOk = true ∧
    arrGet c9Board.kingsideCastlingRightsLost 0 = -1 ∧
    castlingAvailabilityFEN c9Board = [] ∧
    asFEN c9Board = "k7/8/8/8/8/8/8/6K1 w - - 0 1" :=
  ⟨parseCastling_ok_and_skips p st cs hcs, by decide⟩

/-- Witness for the castling-letter theorem: on an empty placement every
home condition fails, and the loop still accepts all four letters. -/
theorem castling_letter_ignored_witness :
    (parseCastlingChars (List.replicate 64 0)
      ([-1, -1], [-1, -1], 0) ['K', 'Q', 'k', 'q']).isOk = true := by
  obtain ⟨⟨out, hout, -, -, -, -⟩, -⟩ :=
    castling_letter_without_home_peices_ignored (List.replicate 64 0)
      ([-1, -1], [-1, -1], 0) ['K', 'Q', 'k', 'q'] (by decide)
  rw [hout]
  rfl

/-- The indices at which `makeMove` writes into the three fixed-capacity
history arrays, read off its assignment statements: after the increment,
`eligibleEnPassantSquare[totalHalfmoves]` (so index `b.totalHalfmoves + 1`),
`positionHistory[totalHalfmoves - 1]`, and the halfmove-clock slot
`hmspmocIndex` (pawn move or capture: the new entry is zeroed) or
`hmspmocIndex - 1` (otherwise: the current entry is incremented). -/
def makeMoveHistoryWriteIndices (b : Board) (m : Move) : Int × Int × Int :=
  (b.totalHalfmoves + 1, b.totalHalfmoves + 1 - 1,
   if m.captured ≠ 0 ∨ m.moving = m.moving / 8 * 8 + PAWN then
     b.hmspmocIndex else b.hmspmocIndex - 1)

/-- C10: the history writes of `makeMove` are in bounds for the C++ array
capacities (500, 500, 250) exactly when, after the increments,
`totalHalfmoves` is at most 499 and `hmspmocIndex` is at most 250; and the
three arrays are modified at no other index. -/
theorem makeMove_history_writes_in_bounds_iff (b : Board) (m : Move)
    (hT : 0 ≤ b.totalHalfmoves) (hI : 1 ≤ b.hmspmocIndex)
    (hep : b.eligibleEnPassantSquare.length = 500)
    (hph : b.positionHistory.length = 500)
    (hcl : b.halfmovesSincePawnMoveOrCapture.length = 250) :
    ((((makeMoveHistoryWriteIndices b m).1).toNat < b.eligibleEnPassantSquare.length ∧
      ((makeMoveHistoryWriteIndices b m).2.1).toNat < b.positionHistory.length ∧
      ((makeMoveHistoryWriteIndices b m).2.2).toNat <
        b.halfmovesSincePawnMoveOrCapture.length) ↔
      ((makeMove b m).totalHalfmoves ≤ 499 ∧ (makeMove b m).hmspmocIndex ≤ 250)) ∧
    (∀ j : Int, j.toNat ≠ ((makeMoveHistoryWriteIndices b m).1).toNat →
      arrGet (makeMove b m).eligibleEnPassantSquare j =
        arrGet b.eligibleEnPassantSquare j) ∧
    (∀ j : Int, j.toNat ≠ ((makeMoveHistoryWriteIndices b m).2.1).toNat →
      arrGetN (makeMove b m).positionHistory j = arrGetN b.positionHistory j) ∧
    (∀ j : Int, j.toNat ≠ ((makeMoveHistoryWriteIndices b m).2.2).toNat →
      arrGet (makeMove b m).halfmovesSincePawnMoveOrCapture j =
        arrGet b.halfmovesSincePawnMoveOrCapture j) := by
  refine ⟨?_, ?_, ?_, ?_⟩
  · simp only [makeMove, makeMoveHistoryWriteIndices]
    rw [hep, hph, hcl]
    by_cases hcond : m.captured ≠ 0 ∨ m.moving = m.moving / 8 * 8 + PAWN
    · simp only [hcond, ite_true, if_true]
      omega
    · simp only [hcond, ite_false, if_false]
      omega
  · intro j hj
    simp only [makeMoveHistoryWriteIndices] at hj
    simp only [makeMove]
    exact arrGet_arrSet_ne _ _ (Ne.symm hj)
  · intro j hj
    simp only [makeMoveHistoryWriteIndices] at hj
    simp only [makeMove]
    exact arrGetN_arrSetN_ne _ _ (Ne.symm hj)
  · intro j hj
    simp only [makeMoveHistoryWriteIndices] at hj
    simp only [makeMove]
    by_cases hcond : m.captured ≠ 0 ∨ m.moving = m.moving / 8 * 8 + PAWN
    · simp only [hcond, ite_true, if_true] at hj ⊢
      exact arrGet_arrSet_ne _ _ (Ne.symm hj)
    · simp only [hcond, ite_false, if_false] at hj ⊢
      exact arrGet_arrSet_ne _ _ (Ne.symm hj)

/-- Witness for the bounds theorem: the double pawn push e2–e4 from the
start position stays within every capacity. -/
theorem makeMove_history_writes_witness :
    (makeMove startBoard (mkMove startBoard 12 28 0)).totalHalfmoves ≤ 499 ∧
    (makeMove startBoard (mkMove startBoard 12 28 0)).hmspmocIndex ≤ 250 :=
  ((makeMove_history_writes_in_bounds_iff startBoard (mkMove startBoard 12 28 0)
    (by decide) (by decide) (by decide) (by decide) (by decide)).1).mp (by decide)
